import Mathlib

/-!
Verification development for the Hyperliquid native signer
(src/native/signer/src/lib.rs).

The Rust code is shallowly embedded:
* byte strings are `List Nat` (each entry a byte value);
* `keccak256` is an arbitrary function `List Nat → Hash32` passed as a
  parameter (`Keccak`), so every theorem quantifies over the hash function
  and only the byte-assembly logic of the code is in question;
* the msgpack encoding performed by `rmp_serde::to_vec_named` is embedded
  byte-for-byte (compact integer forms, fixstr/fixmap/fixarray headers,
  named struct fields in declaration order);
* ECDSA signing is an arbitrary function `Hash32 → AlloySig`, since the
  claims only concern the bytes that are hashed/signed and the formatting
  of the result, never curve arithmetic.
-/

namespace HLSigner

/-- A 32-byte value (the output type of keccak256, Rust `B256`). -/
abbrev Hash32 := {l : List Nat // l.length = 32}

/-- The keccak256 hash function, kept abstract: every theorem holds for an
arbitrary function of this type. -/
abbrev Keccak := List Nat → Hash32

/-- Big-endian base-256 digits of `n`, exactly `k` bytes (embedding of
Rust `to_be_bytes` for the various integer widths). -/
def beBytes : Nat → Nat → List Nat
  | 0, _ => []
  | k + 1, n => n / 256 ^ k % 256 :: beBytes k n

/-- Concatenation of `f` over a list (used for encoding sequences). -/
def catMap (f : α → List β) : List α → List β
  | [] => []
  | x :: xs => f x ++ catMap f xs

/-- UTF-8 bytes of one character. -/
def utf8Char (c : Char) : List Nat :=
  let n := c.toNat
  if n < 128 then [n]
  else if n < 2048 then [192 + n / 64, 128 + n % 64]
  else if n < 65536 then [224 + n / 4096, 128 + n / 64 % 64, 128 + n % 64]
  else [240 + n / 262144, 128 + n / 4096 % 64, 128 + n / 64 % 64, 128 + n % 64]

/-- UTF-8 bytes of a string (Rust `str::as_bytes`). -/
def utf8 (s : String) : List Nat := catMap utf8Char s.data

/-- Msgpack encoding of an unsigned integer in the most compact form
(embedding of `rmp::encode::write_uint`, used by `rmp_serde` for
`u8`/`u16`/`u32`/`u64` and for non-negative `i64`). -/
def mpUInt (n : Nat) : List Nat :=
  if n < 128 then [n]
  else if n < 256 then [0xcc, n]
  else if n < 65536 then [0xcd, n / 256, n % 256]
  else if n < 4294967296 then 0xce :: beBytes 4 n
  else 0xcf :: beBytes 8 n

/-- Msgpack encoding of a signed integer in the most compact form
(embedding of `rmp::encode::write_sint`; non-negative values delegate to
the unsigned forms). -/
def mpSInt (i : Int) : List Nat :=
  if 0 ≤ i then mpUInt i.toNat
  else if -32 ≤ i then [(256 + i).toNat]
  else if -128 ≤ i then [0xd0, (256 + i).toNat]
  else if -32768 ≤ i then 0xd1 :: beBytes 2 (65536 + i).toNat
  else if -2147483648 ≤ i then 0xd2 :: beBytes 4 (4294967296 + i).toNat
  else 0xd3 :: beBytes 8 (18446744073709551616 + i).toNat

/-- Msgpack str-format header for a payload of `n` bytes. -/
def strHeader (n : Nat) : List Nat :=
  if n < 32 then [0xa0 + n]
  else if n < 256 then [0xd9, n]
  else if n < 65536 then [0xda, n / 256, n % 256]
  else 0xdb :: beBytes 4 n

/-- Msgpack array-format header for `n` elements. -/
def arrHeader (n : Nat) : List Nat :=
  if n < 16 then [0x90 + n]
  else if n < 65536 then [0xdc, n / 256, n % 256]
  else 0xdd :: beBytes 4 n

/-- Msgpack map-format header for `n` key/value pairs. -/
def mapHeader (n : Nat) : List Nat :=
  if n < 16 then [0x80 + n]
  else if n < 65536 then [0xde, n / 256, n % 256]
  else 0xdf :: beBytes 4 n

/-- Msgpack bin-format header for `n` bytes. -/
def binHeader (n : Nat) : List Nat :=
  if n < 256 then [0xc4, n]
  else if n < 65536 then [0xc5, n / 256, n % 256]
  else 0xc6 :: beBytes 4 n

/-- Msgpack encoding of a string. -/
def mpStr (s : String) : List Nat := strHeader (utf8 s).length ++ utf8 s

/-- Msgpack encoding of a boolean. -/
def mpBool (b : Bool) : List Nat := [if b then 0xc3 else 0xc2]

/-- Msgpack encoding of a byte blob (`serialize_bytes`, bin format). -/
def mpBin (bs : List Nat) : List Nat := binHeader bs.length ++ bs

/-- A map key followed by an encoded value (one named field). -/
def mpKV (k : String) (v : List Nat) : List Nat := mpStr k ++ v

/-- Embedding of `serde_json::Value`. Numbers are split into the u64-held
(`uint`) and negative i64-held (`int`) cases exactly as `serde_json`'s
`Number` stores integers; float-held numbers are not modelled (no claim
involves them). Modelled from the spec: object fields keep insertion
order ("field order for known variants follows fixed declaration order,
never alphabetical sorting") — the `serde_json` map-ordering feature is
configured outside `src/`. -/
inductive Json where
  | null
  | bool (b : Bool)
  | uint (n : Nat)
  | int (i : Int)
  | str (s : String)
  | arr (items : List Json)
  | obj (fields : List (String × Json))

mutual
/-- Embedding of `rmp_serde::to_vec_named` applied to a `serde_json::Value`
(the generic hashing path of `hash_json_value_with_exp`). -/
def mpOfJson : Json → List Nat
  | .null => [0xc0]
  | .bool b => mpBool b
  | .uint n => mpUInt n
  | .int i => mpSInt i
  | .str s => mpStr s
  | .arr items => arrHeader items.length ++ mpOfJsonList items
  | .obj fields => mapHeader fields.length ++ mpOfJsonFields fields

/-- Encoding of the elements of a msgpack array, in order. -/
def mpOfJsonList : List Json → List Nat
  | [] => []
  | v :: vs => mpOfJson v ++ mpOfJsonList vs

/-- Encoding of the entries of a msgpack map, in order. -/
def mpOfJsonFields : List (String × Json) → List Nat
  | [] => []
  | (k, v) :: kvs => mpStr k ++ mpOfJson v ++ mpOfJsonFields kvs
end

/-! ## The typed action model (the `Actions` enum and its payload structs) -/

/-- A 20-byte EVM address (`alloy::primitives::Address`), as raw bytes. -/
abbrev Address := List Nat

/-- Rust `Limit { tif }`. -/
structure Limit where
  tif : String

/-- Rust `Trigger { is_market, trigger_px, tpsl }`. -/
structure Trigger where
  is_market : Bool
  trigger_px : String
  tpsl : String

/-- Rust `enum Order { Limit, Trigger }` (externally tagged, camelCase). -/
inductive OrderTy where
  | limit (l : Limit)
  | trigger (t : Trigger)

/-- Rust `OrderRequest` (serde field names "a","b","p","s","r","t","c";
`cloid` is skipped when `none`). -/
structure OrderRequest where
  asset : Nat
  is_buy : Bool
  limit_px : String
  sz : String
  reduce_only : Bool
  order_type : OrderTy
  cloid : Option String

/-- Rust `BuilderInfo` (serde field names "b","f"). -/
structure BuilderInfo where
  builder : String
  fee : Nat

/-- Rust `BulkOrder { orders, grouping, builder? }` (builder skipped when
`none`). -/
structure BulkOrder where
  orders : List OrderRequest
  grouping : String
  builder : Option BuilderInfo

/-- Rust `CancelRequest` (serde field names "a","o"). -/
structure CancelRequest where
  asset : Nat
  oid : Nat

/-- Rust `BulkCancel { cancels }`. -/
structure BulkCancel where
  cancels : List CancelRequest

/-- Rust `CancelRequestCloid { asset, cloid }`. -/
structure CancelRequestCloid where
  asset : Nat
  cloid : String

/-- Rust `BulkCancelCloid { cancels }`. -/
structure BulkCancelCloid where
  cancels : List CancelRequestCloid

/-- Rust `ModifyRequest` (serde field names "o","order"). -/
structure ModifyRequest where
  oid : Nat
  order : OrderRequest

/-- Rust `BulkModify { modifies }`. -/
structure BulkModify where
  modifies : List ModifyRequest

/-- Rust `UpdateLeverage { asset, is_cross, leverage }`. -/
structure UpdateLeverage where
  asset : Nat
  is_cross : Bool
  leverage : Nat

/-- Rust `UpdateIsolatedMargin { asset, is_buy, ntli: i64 }`. -/
structure UpdateIsolatedMargin where
  asset : Nat
  is_buy : Bool
  ntli : Int

/-- Rust `ClassTransfer { usdc, to_perp }`. -/
structure ClassTransfer where
  usdc : Nat
  to_perp : Bool

/-- Rust `SpotUser { class_transfer }`. -/
structure SpotUser where
  class_transfer : ClassTransfer

/-- Rust `VaultTransfer { vault_address: Address, is_deposit, usd }`. -/
structure VaultTransfer where
  vault_address : Address
  is_deposit : Bool
  usd : Nat

/-- Rust `SubAccountTransfer { sub_account_user, is_deposit, usd }`. -/
structure SubAccountTransfer where
  sub_account_user : String
  is_deposit : Bool
  usd : Nat

/-- Rust `SubAccountSpotTransfer`. -/
structure SubAccountSpotTransfer where
  sub_account_user : String
  is_deposit : Bool
  token : String
  amount : String

/-- Rust `UsdClassTransfer`. -/
structure UsdClassTransfer where
  signature_chain_id : String
  hyperliquid_chain : String
  amount : String
  to_perp : Bool
  nonce : Nat

/-- Rust `SetReferrer { code }`. -/
structure SetReferrer where
  code : String

/-- Rust `EvmUserModify { using_big_blocks }`. -/
structure EvmUserModify where
  using_big_blocks : Bool

/-- Rust `ScheduleCancel { time? }` (time skipped when `none`). -/
structure ScheduleCancel where
  time : Option Nat

/-- Rust `enum Actions`, internally tagged with "type", variant names in
camelCase. -/
inductive Actions where
  | updateLeverage (u : UpdateLeverage)
  | updateIsolatedMargin (m : UpdateIsolatedMargin)
  | order (b : BulkOrder)
  | cancel (c : BulkCancel)
  | cancelByCloid (c : BulkCancelCloid)
  | batchModify (m : BulkModify)
  | spotUser (s : SpotUser)
  | vaultTransfer (v : VaultTransfer)
  | subAccountTransfer (t : SubAccountTransfer)
  | subAccountSpotTransfer (t : SubAccountSpotTransfer)
  | usdClassTransfer (t : UsdClassTransfer)
  | setReferrer (r : SetReferrer)
  | evmUserModify (e : EvmUserModify)
  | scheduleCancel (s : ScheduleCancel)
  | claimRewards

/-- True exactly on the variant whose payload holds a raw `Address`. -/
def Actions.hasRawAddress : Actions → Bool
  | .vaultTransfer _ => true
  | _ => false

/-! ## The typed msgpack encoder

Embedding of `rmp_serde::to_vec_named` applied to an `Actions` value: the
internally-tagged enum serializes as a map whose first entry is
`"type" ↦ variant name`, followed by the variant struct's fields in
declaration order; `Option` fields with `skip_serializing_if` are omitted
when `None`; an `alloy` `Address` serializes as raw bytes (bin format) on
this non-human-readable serializer. -/

/-- Msgpack bytes of a `Limit` struct. -/
def mpLimit (l : Limit) : List Nat :=
  mapHeader 1 ++ mpKV "tif" (mpStr l.tif)

/-- Msgpack bytes of a `Trigger` struct. -/
def mpTrigger (t : Trigger) : List Nat :=
  mapHeader 3 ++ mpKV "isMarket" (mpBool t.is_market) ++
    mpKV "triggerPx" (mpStr t.trigger_px) ++ mpKV "tpsl" (mpStr t.tpsl)

/-- Msgpack bytes of the `Order` enum (externally tagged newtype variant:
a one-entry map from the camelCase variant name to the payload). -/
def mpOrderTy : OrderTy → List Nat
  | .limit l => mapHeader 1 ++ mpKV "limit" (mpLimit l)
  | .trigger t => mapHeader 1 ++ mpKV "trigger" (mpTrigger t)

/-- Msgpack bytes of an `OrderRequest`. -/
def mpOrderRequest (o : OrderRequest) : List Nat :=
  mapHeader (if o.cloid.isSome then 7 else 6) ++
    mpKV "a" (mpUInt o.asset) ++ mpKV "b" (mpBool o.is_buy) ++
    mpKV "p" (mpStr o.limit_px) ++ mpKV "s" (mpStr o.sz) ++
    mpKV "r" (mpBool o.reduce_only) ++ mpKV "t" (mpOrderTy o.order_type) ++
    (match o.cloid with
      | some c => mpKV "c" (mpStr c)
      | none => [])

/-- Msgpack bytes of a `BuilderInfo`. -/
def mpBuilderInfo (bi : BuilderInfo) : List Nat :=
  mapHeader 2 ++ mpKV "b" (mpStr bi.builder) ++ mpKV "f" (mpUInt bi.fee)

/-- Msgpack bytes of a `CancelRequest`. -/
def mpCancelRequest (c : CancelRequest) : List Nat :=
  mapHeader 2 ++ mpKV "a" (mpUInt c.asset) ++ mpKV "o" (mpUInt c.oid)

/-- Msgpack bytes of a `CancelRequestCloid`. -/
def mpCancelRequestCloid (c : CancelRequestCloid) : List Nat :=
  mapHeader 2 ++ mpKV "asset" (mpUInt c.asset) ++ mpKV "cloid" (mpStr c.cloid)

/-- Msgpack bytes of a `ModifyRequest`. -/
def mpModifyRequest (m : ModifyRequest) : List Nat :=
  mapHeader 2 ++ mpKV "o" (mpUInt m.oid) ++ mpKV "order" (mpOrderRequest m.order)

/-- Msgpack bytes of a `ClassTransfer`. -/
def mpClassTransfer (c : ClassTransfer) : List Nat :=
  mapHeader 2 ++ mpKV "usdc" (mpUInt c.usdc) ++ mpKV "toPerp" (mpBool c.to_perp)

/-- Embedding of `rmp_serde::to_vec_named` on the `Actions` enum. -/
def mpOfActions : Actions → List Nat
  | .updateLeverage u =>
      mapHeader 4 ++ mpKV "type" (mpStr "updateLeverage") ++
        mpKV "asset" (mpUInt u.asset) ++ mpKV "isCross" (mpBool u.is_cross) ++
        mpKV "leverage" (mpUInt u.leverage)
  | .updateIsolatedMargin m =>
      mapHeader 4 ++ mpKV "type" (mpStr "updateIsolatedMargin") ++
        mpKV "asset" (mpUInt m.asset) ++ mpKV "isBuy" (mpBool m.is_buy) ++
        mpKV "ntli" (mpSInt m.ntli)
  | .order b =>
      mapHeader (if b.builder.isSome then 4 else 3) ++
        mpKV "type" (mpStr "order") ++
        mpKV "orders" (arrHeader b.orders.length ++ catMap mpOrderRequest b.orders) ++
        mpKV "grouping" (mpStr b.grouping) ++
        (match b.builder with
          | some bi => mpKV "builder" (mpBuilderInfo bi)
          | none => [])
  | .cancel c =>
      mapHeader 2 ++ mpKV "type" (mpStr "cancel") ++
        mpKV "cancels" (arrHeader c.cancels.length ++ catMap mpCancelRequest c.cancels)
  | .cancelByCloid c =>
      mapHeader 2 ++ mpKV "type" (mpStr "cancelByCloid") ++
        mpKV "cancels"
          (arrHeader c.cancels.length ++ catMap mpCancelRequestCloid c.cancels)
  | .batchModify m =>
      mapHeader 2 ++ mpKV "type" (mpStr "batchModify") ++
        mpKV "modifies"
          (arrHeader m.modifies.length ++ catMap mpModifyRequest m.modifies)
  | .spotUser s =>
      mapHeader 2 ++ mpKV "type" (mpStr "spotUser") ++
        mpKV "classTransfer" (mpClassTransfer s.class_transfer)
  | .vaultTransfer v =>
      mapHeader 4 ++ mpKV "type" (mpStr "vaultTransfer") ++
        mpKV "vaultAddress" (mpBin v.vault_address) ++
        mpKV "isDeposit" (mpBool v.is_deposit) ++ mpKV "usd" (mpUInt v.usd)
  | .subAccountTransfer t =>
      mapHeader 4 ++ mpKV "type" (mpStr "subAccountTransfer") ++
        mpKV "subAccountUser" (mpStr t.sub_account_user) ++
        mpKV "isDeposit" (mpBool t.is_deposit) ++ mpKV "usd" (mpUInt t.usd)
  | .subAccountSpotTransfer t =>
      mapHeader 5 ++ mpKV "type" (mpStr "subAccountSpotTransfer") ++
        mpKV "subAccountUser" (mpStr t.sub_account_user) ++
        mpKV "isDeposit" (mpBool t.is_deposit) ++
        mpKV "token" (mpStr t.token) ++ mpKV "amount" (mpStr t.amount)
  | .usdClassTransfer t =>
      mapHeader 6 ++ mpKV "type" (mpStr "usdClassTransfer") ++
        mpKV "signatureChainId" (mpStr t.signature_chain_id) ++
        mpKV "hyperliquidChain" (mpStr t.hyperliquid_chain) ++
        mpKV "amount" (mpStr t.amount) ++ mpKV "toPerp" (mpBool t.to_perp) ++
        mpKV "nonce" (mpUInt t.nonce)
  | .setReferrer r =>
      mapHeader 2 ++ mpKV "type" (mpStr "setReferrer") ++
        mpKV "code" (mpStr r.code)
  | .evmUserModify e =>
      mapHeader 2 ++ mpKV "type" (mpStr "evmUserModify") ++
        mpKV "usingBigBlocks" (mpBool e.using_big_blocks)
  | .scheduleCancel s =>
      mapHeader (if s.time.isSome then 2 else 1) ++
        mpKV "type" (mpStr "scheduleCancel") ++
        (match s.time with
          | some t => mpKV "time" (mpUInt t)
          | none => [])
  | .claimRewards =>
      mapHeader 1 ++ mpKV "type" (mpStr "claimRewards")

/-! ## The JSON-tree serialization of `Actions`

Embedding of `serde_json::to_value` on the same derived `Serialize`
implementations: this is the canonical JSON value tree of an action, the
input the generic path (`compute_connection_id_ex`,
`hash_json_value_with_exp`) receives when the caller supplies the same
logical action as JSON. On this human-readable serializer an `alloy`
`Address` becomes its 0x-prefixed lowercase hex string. -/

/-- Lowercase hex character of a nibble. -/
def hexCharOfNibble (n : Nat) : Char :=
  if n < 10 then Char.ofNat (48 + n) else Char.ofNat (87 + n)

/-- The two lowercase hex characters of a byte. -/
def hexByteChars (b : Nat) : List Char :=
  [hexCharOfNibble (b / 16 % 16), hexCharOfNibble (b % 16)]

/-- 0x-prefixed lowercase hex string of an address's bytes. -/
def addressHex (addr : Address) : String :=
  "0x" ++ String.mk (catMap hexByteChars addr)

/-- How `serde_json` stores an `i64`: non-negative values in the unsigned
slot, negative values in the signed slot. -/
def jsonNum (i : Int) : Json :=
  if 0 ≤ i then .uint i.toNat else .int i

/-- JSON tree of a `Limit`. -/
def jsonOfLimit (l : Limit) : Json := .obj [("tif", .str l.tif)]

/-- JSON tree of a `Trigger`. -/
def jsonOfTrigger (t : Trigger) : Json :=
  .obj [("isMarket", .bool t.is_market), ("triggerPx", .str t.trigger_px),
        ("tpsl", .str t.tpsl)]

/-- JSON tree of the `Order` enum. -/
def jsonOfOrderTy : OrderTy → Json
  | .limit l => .obj [("limit", jsonOfLimit l)]
  | .trigger t => .obj [("trigger", jsonOfTrigger t)]

/-- JSON tree of an `OrderRequest`. -/
def jsonOfOrderRequest (o : OrderRequest) : Json :=
  .obj ([("a", .uint o.asset), ("b", .bool o.is_buy), ("p", .str o.limit_px),
         ("s", .str o.sz), ("r", .bool o.reduce_only),
         ("t", jsonOfOrderTy o.order_type)] ++
    (match o.cloid with
      | some c => [("c", .str c)]
      | none => []))

/-- JSON tree of a `BuilderInfo`. -/
def jsonOfBuilderInfo (bi : BuilderInfo) : Json :=
  .obj [("b", .str bi.builder), ("f", .uint bi.fee)]

/-- JSON tree of a `CancelRequest`. -/
def jsonOfCancelRequest (c : CancelRequest) : Json :=
  .obj [("a", .uint c.asset), ("o", .uint c.oid)]

/-- JSON tree of a `CancelRequestCloid`. -/
def jsonOfCancelRequestCloid (c : CancelRequestCloid) : Json :=
  .obj [("asset", .uint c.asset), ("cloid", .str c.cloid)]

/-- JSON tree of a `ModifyRequest`. -/
def jsonOfModifyRequest (m : ModifyRequest) : Json :=
  .obj [("o", .uint m.oid), ("order", jsonOfOrderRequest m.order)]

/-- JSON tree of a `ClassTransfer`. -/
def jsonOfClassTransfer (c : ClassTransfer) : Json :=
  .obj [("usdc", .uint c.usdc), ("toPerp", .bool c.to_perp)]

/-- JSON tree of an `Actions` value (internally tagged: "type" first). -/
def jsonOfActions : Actions → Json
  | .updateLeverage u =>
      .obj [("type", .str "updateLeverage"), ("asset", .uint u.asset),
            ("isCross", .bool u.is_cross), ("leverage", .uint u.leverage)]
  | .updateIsolatedMargin m =>
      .obj [("type", .str "updateIsolatedMargin"), ("asset", .uint m.asset),
            ("isBuy", .bool m.is_buy), ("ntli", jsonNum m.ntli)]
  | .order b =>
      .obj ([("type", .str "order"),
             ("orders", .arr (b.orders.map jsonOfOrderRequest)),
             ("grouping", .str b.grouping)] ++
        (match b.builder with
          | some bi => [("builder", jsonOfBuilderInfo bi)]
          | none => []))
  | .cancel c =>
      .obj [("type", .str "cancel"),
            ("cancels", .arr (c.cancels.map jsonOfCancelRequest))]
  | .cancelByCloid c =>
      .obj [("type", .str "cancelByCloid"),
            ("cancels", .arr (c.cancels.map jsonOfCancelRequestCloid))]
  | .batchModify m =>
      .obj [("type", .str "batchModify"),
            ("modifies", .arr (m.modifies.map jsonOfModifyRequest))]
  | .spotUser s =>
      .obj [("type", .str "spotUser"),
            ("classTransfer", jsonOfClassTransfer s.class_transfer)]
  | .vaultTransfer v =>
      .obj [("type", .str "vaultTransfer"),
            ("vaultAddress", .str (addressHex v.vault_address)),
            ("isDeposit", .bool v.is_deposit), ("usd", .uint v.usd)]
  | .subAccountTransfer t =>
      .obj [("type", .str "subAccountTransfer"),
            ("subAccountUser", .str t.sub_account_user),
            ("isDeposit", .bool t.is_deposit), ("usd", .uint t.usd)]
  | .subAccountSpotTransfer t =>
      .obj [("type", .str "subAccountSpotTransfer"),
            ("subAccountUser", .str t.sub_account_user),
            ("isDeposit", .bool t.is_deposit), ("token", .str t.token),
            ("amount", .str t.amount)]
  | .usdClassTransfer t =>
      .obj [("type", .str "usdClassTransfer"),
            ("signatureChainId", .str t.signature_chain_id),
            ("hyperliquidChain", .str t.hyperliquid_chain),
            ("amount", .str t.amount), ("toPerp", .bool t.to_perp),
            ("nonce", .uint t.nonce)]
  | .setReferrer r =>
      .obj [("type", .str "setReferrer"), ("code", .str r.code)]
  | .evmUserModify e =>
      .obj [("type", .str "evmUserModify"),
            ("usingBigBlocks", .bool e.using_big_blocks)]
  | .scheduleCancel s =>
      .obj (("type", .str "scheduleCancel") ::
        (match s.time with
          | some t => [("time", Json.uint t)]
          | none => []))
  | .claimRewards =>
      .obj [("type", .str "claimRewards")]

/-! ## The action hasher (`hash_action_with_exp`, `hash_json_value_with_exp`) -/

/-- Byte sequence assembled by `hash_action_with_exp` before hashing:
msgpack bytes of the action, then the nonce pushed as 8 big-endian bytes,
then the vault flag/address, then the expiry marker when present
(src/native/signer/src/lib.rs lines 275-296). -/
def action_hash_input (action : Actions) (timestamp : Nat)
    (vault_address : Option Address) (expires_after : Option Nat) : List Nat :=
  let bytes := mpOfActions action
  let bytes := bytes ++ beBytes 8 timestamp
  let bytes :=
    match vault_address with
    | some addr => (bytes ++ [1]) ++ addr
    | none => bytes ++ [0]
  let bytes :=
    match expires_after with
    | some exp => (bytes ++ [0]) ++ beBytes 8 exp
    | none => bytes
  bytes

/-- Embedding of `hash_action_with_exp`. -/
def hash_action_with_exp (keccak : Keccak) (action : Actions) (timestamp : Nat)
    (vault_address : Option Address) (expires_after : Option Nat) : Hash32 :=
  keccak (action_hash_input action timestamp vault_address expires_after)

/-- Embedding of `hash_action` (no expiry). -/
def hash_action (keccak : Keccak) (action : Actions) (timestamp : Nat)
    (vault_address : Option Address) : Hash32 :=
  hash_action_with_exp keccak action timestamp vault_address none

/-- Byte sequence assembled by `hash_json_value_with_exp` before hashing
(identical assembly, generic msgpack encoding of the JSON value). -/
def json_hash_input (value : Json) (timestamp : Nat)
    (vault_address : Option Address) (expires_after : Option Nat) : List Nat :=
  let bytes := mpOfJson value
  let bytes := bytes ++ beBytes 8 timestamp
  let bytes :=
    match vault_address with
    | some addr => (bytes ++ [1]) ++ addr
    | none => bytes ++ [0]
  let bytes :=
    match expires_after with
    | some exp => (bytes ++ [0]) ++ beBytes 8 exp
    | none => bytes
  bytes

/-- Embedding of `hash_json_value_with_exp`. -/
def hash_json_value_with_exp (keccak : Keccak) (value : Json) (timestamp : Nat)
    (vault_address : Option Address) (expires_after : Option Nat) : Hash32 :=
  keccak (json_hash_input value timestamp vault_address expires_after)

/-! ## EIP-712 -/

/-- The EIP-712 domain fields used by this code (`alloy` `Eip712Domain`
restricted to name/version/chainId/verifyingContract, the four fields every
domain in the source populates). -/
structure Eip712Domain where
  name : String
  version : String
  chainId : Nat
  verifyingContract : Address

/-- Embedding of `tx_domain`: the `HyperliquidSignTransaction` domain with a
caller-supplied numeric chain id and the zero verifying contract. -/
def tx_domain (chain_id : Nat) : Eip712Domain :=
  { name := "HyperliquidSignTransaction", version := "1", chainId := chain_id,
    verifyingContract := List.replicate 20 0 }

/-- The fixed domain of the L1 `Agent` message (lib.rs lines 200-208). -/
def agentDomain : Eip712Domain :=
  { name := "Exchange", version := "1", chainId := 1337,
    verifyingContract := List.replicate 20 0 }

/-- A `uint256` ABI word (32 big-endian bytes). -/
def abiWord (n : Nat) : List Nat := beBytes 32 n

/-- An address ABI word: 12 zero bytes then the 20 address bytes. -/
def abiAddress (a : Address) : List Nat := List.replicate 12 0 ++ a

/-- EIP-712 domain separator: keccak of the domain type hash and the four
encoded fields (strings pre-hashed, chain id as uint256, address padded). -/
def domainSeparator (keccak : Keccak) (d : Eip712Domain) : Hash32 :=
  keccak ((keccak (utf8
      "EIP712Domain(string name,string version,uint256 chainId,address verifyingContract)")).val ++
    (keccak (utf8 d.name)).val ++ (keccak (utf8 d.version)).val ++
    abiWord d.chainId ++ abiAddress d.verifyingContract)

/-- Embedding of the `Eip712` trait's default `eip712_signing_hash` (lib.rs
lines 179-186): a 66-byte buffer `0x19 0x01 ‖ domain hash ‖ struct hash`
is assembled and hashed. -/
def eip712_signing_hash (keccak : Keccak) (domainHash structHash : Hash32) : Hash32 :=
  let digest_input := [0x19, 0x01] ++ domainHash.val ++ structHash.val
  keccak digest_input

/-- Modelled from the spec: the generic typed-data path delegates to the
`ethers` `TypedData::encode_eip712`, which is not part of this repository;
per the spec both modes share one digest formula,
`hash( 0x19 0x01 ‖ domainSeparator ‖ structHash )` over exactly 66 bytes. -/
def genericTypedDataDigest (keccak : Keccak) (domainHash structHash : Hash32) : Hash32 :=
  keccak ([0x19, 0x01] ++ domainHash.val ++ structHash.val)

/-- Struct hash of the L1 `Agent { string source; bytes32 connectionId }`
message: keccak of the type hash, the hashed source string and the raw
connection id. -/
def agentStructHash (keccak : Keccak) (source : String) (connectionId : Hash32) : Hash32 :=
  keccak ((keccak (utf8 "Agent(string source,bytes32 connectionId)")).val ++
    (keccak (utf8 source)).val ++ connectionId.val)

/-- The digest signed by `sign_l1_agent_action` (lib.rs lines 221-225):
source is "a" on mainnet and "b" otherwise, domain is the fixed `Exchange`
domain. -/
def sign_l1_agent_digest (keccak : Keccak) (connection_id : Hash32)
    (is_mainnet : Bool) : Hash32 :=
  let source := if is_mainnet then "a" else "b"
  eip712_signing_hash keccak (domainSeparator keccak agentDomain)
    (agentStructHash keccak source connection_id)

/-- Rust `SendMultiSig` payload struct. -/
structure SendMultiSig where
  signature_chain_id : Nat
  hyperliquid_chain : String
  multi_sig_action_hash : Hash32
  nonce : Nat

/-- `SendMultiSig`'s EIP-712 domain (lib.rs line 34): the transaction
domain parameterized by the payload's `signature_chain_id`. -/
def SendMultiSig.domain (p : SendMultiSig) : Eip712Domain :=
  tx_domain p.signature_chain_id

/-- `SendMultiSig`'s struct hash (lib.rs lines 35-43). -/
def SendMultiSig.structHash (keccak : Keccak) (p : SendMultiSig) : Hash32 :=
  keccak ((keccak (utf8
      "HyperliquidTransaction:SendMultiSig(string hyperliquidChain,bytes32 multiSigActionHash,uint64 nonce)")).val ++
    (keccak (utf8 p.hyperliquid_chain)).val ++ p.multi_sig_action_hash.val ++
    abiWord p.nonce)

/-- Final digest of a `SendMultiSig` payload via the shared trait default. -/
def sendMultiSigDigest (keccak : Keccak) (p : SendMultiSig) : Hash32 :=
  eip712_signing_hash keccak (domainSeparator keccak p.domain)
    (p.structHash keccak)

/-- Rust `UsdSend` payload struct. -/
structure UsdSend where
  signature_chain_id : Nat
  hyperliquid_chain : String
  destination : String
  amount : String
  time : Nat

/-- `UsdSend`'s EIP-712 domain (lib.rs line 470). -/
def UsdSend.domain (p : UsdSend) : Eip712Domain := tx_domain p.signature_chain_id

/-- `UsdSend`'s struct hash (lib.rs lines 471-480). -/
def UsdSend.structHash (keccak : Keccak) (p : UsdSend) : Hash32 :=
  keccak ((keccak (utf8
      "HyperliquidTransaction:UsdSend(string hyperliquidChain,string destination,string amount,uint64 time)")).val ++
    (keccak (utf8 p.hyperliquid_chain)).val ++ (keccak (utf8 p.destination)).val ++
    (keccak (utf8 p.amount)).val ++ abiWord p.time)

/-- Rust `Withdraw3` payload struct. -/
structure Withdraw3 where
  signature_chain_id : Nat
  hyperliquid_chain : String
  destination : String
  amount : String
  time : Nat

/-- `Withdraw3`'s EIP-712 domain (lib.rs line 488). -/
def Withdraw3.domain (p : Withdraw3) : Eip712Domain := tx_domain p.signature_chain_id

/-- `Withdraw3`'s struct hash (lib.rs lines 489-498). -/
def Withdraw3.structHash (keccak : Keccak) (p : Withdraw3) : Hash32 :=
  keccak ((keccak (utf8
      "HyperliquidTransaction:Withdraw(string hyperliquidChain,string destination,string amount,uint64 time)")).val ++
    (keccak (utf8 p.hyperliquid_chain)).val ++ (keccak (utf8 p.destination)).val ++
    (keccak (utf8 p.amount)).val ++ abiWord p.time)

/-- Rust `SpotSend` payload struct. -/
structure SpotSend where
  signature_chain_id : Nat
  hyperliquid_chain : String
  destination : String
  token : String
  amount : String
  time : Nat

/-- `SpotSend`'s EIP-712 domain (lib.rs line 506). -/
def SpotSend.domain (p : SpotSend) : Eip712Domain := tx_domain p.signature_chain_id

/-- `SpotSend`'s struct hash (lib.rs lines 507-517). -/
def SpotSend.structHash (keccak : Keccak) (p : SpotSend) : Hash32 :=
  keccak ((keccak (utf8
      "HyperliquidTransaction:SpotSend(string hyperliquidChain,string destination,string token,string amount,uint64 time)")).val ++
    (keccak (utf8 p.hyperliquid_chain)).val ++ (keccak (utf8 p.destination)).val ++
    (keccak (utf8 p.token)).val ++ (keccak (utf8 p.amount)).val ++ abiWord p.time)

/-- Rust `ApproveBuilderFee` payload struct. -/
structure ApproveBuilderFee where
  signature_chain_id : Nat
  hyperliquid_chain : String
  builder : Address
  max_fee_rate : String
  nonce : Nat

/-- `ApproveBuilderFee`'s EIP-712 domain (lib.rs line 525). -/
def ApproveBuilderFee.domain (p : ApproveBuilderFee) : Eip712Domain :=
  tx_domain p.signature_chain_id

/-- `ApproveBuilderFee`'s struct hash (lib.rs lines 526-535). -/
def ApproveBuilderFee.structHash (keccak : Keccak) (p : ApproveBuilderFee) : Hash32 :=
  keccak ((keccak (utf8
      "HyperliquidTransaction:ApproveBuilderFee(string hyperliquidChain,string maxFeeRate,address builder,uint64 nonce)")).val ++
    (keccak (utf8 p.hyperliquid_chain)).val ++ (keccak (utf8 p.max_fee_rate)).val ++
    abiAddress p.builder ++ abiWord p.nonce)

/-- Rust `ApproveAgent` payload struct. -/
structure ApproveAgent where
  signature_chain_id : Nat
  hyperliquid_chain : String
  agent_address : Address
  agent_name : Option String
  nonce : Nat

/-- `ApproveAgent`'s EIP-712 domain (lib.rs line 543). -/
def ApproveAgent.domain (p : ApproveAgent) : Eip712Domain :=
  tx_domain p.signature_chain_id

/-- `ApproveAgent`'s struct hash (lib.rs lines 544-553); a missing agent
name hashes as the empty string. -/
def ApproveAgent.structHash (keccak : Keccak) (p : ApproveAgent) : Hash32 :=
  keccak ((keccak (utf8
      "HyperliquidTransaction:ApproveAgent(string hyperliquidChain,address agentAddress,string agentName,uint64 nonce)")).val ++
    (keccak (utf8 p.hyperliquid_chain)).val ++ abiAddress p.agent_address ++
    (keccak (utf8 (p.agent_name.getD ""))).val ++ abiWord p.nonce)

/-- Embedding of `chain` (lib.rs lines 630-636): one fixed numeric chain
id (42161) for both networks; the network only selects the
`hyperliquidChain` string. -/
def chain (is_mainnet : Bool) : Nat × String :=
  let chain_id := 42161
  let hyperliquid_chain := if is_mainnet then "Mainnet" else "Testnet"
  (chain_id, hyperliquid_chain)

/-! ## Signature formatting (`signature_to_map`) -/

/-- An ECDSA signature as `alloy` hands it back: two 256-bit scalars and
the recovery parity bit. Curve arithmetic is out of scope, so signing is
an arbitrary function `Hash32 → AlloySig` in everything below. -/
structure AlloySig where
  r : Nat
  s : Nat
  yParity : Bool

/-- An abstract ECDSA signer over a 32-byte digest. -/
abbrev SignFn := Hash32 → AlloySig

/-- Big-endian base-16 digits of `n`, exactly `k` of them (the zero-padded
fixed-width rendering `format!` produces with a `0k` width for values that
fit, as the 256-bit `r`/`s` always do in 64 digits). -/
def hexDigitsBE : Nat → Nat → List Nat
  | 0, _ => []
  | k + 1, n => n / 16 ^ k % 16 :: hexDigitsBE k n

/-- Zero-padded 64-character hex rendering (embedding of
`format!` with the `064x` spec applied to `r` and `s`). -/
def padHex64 (n : Nat) : List Char := (hexDigitsBE 64 n).map hexCharOfNibble

/-- The "0x"-prefixed zero-padded 64-hex-character string. -/
def fmt0x64 (n : Nat) : List Char := '0' :: 'x' :: padHex64 n

/-- Hex rendering of a 32-byte value with a 0x prefix (embedding of
`format!` with the alternate-hex spec on `B256`, used for connection ids). -/
def b256Hex (h : Hash32) : List Char :=
  '0' :: 'x' :: catMap hexByteChars h.val

/-- The numeric `v` of a signature: recovery id plus 27. -/
def sigV (sig : AlloySig) : Nat := 27 + (if sig.yParity then 1 else 0)

/-- Modelled from the spec: the combined signature string produced by the
`alloy` `Signature` display (not part of this repository) — "0x" followed
by the 130 hex characters of `r ‖ s ‖ v` (65 bytes). -/
def sigCombinedHex (sig : AlloySig) : List Char :=
  '0' :: 'x' ::
    (padHex64 sig.r ++ padHex64 sig.s ++ (hexDigitsBE 2 (sigV sig)).map hexCharOfNibble)

/-- The result map built by `signature_to_map` (lib.rs lines 227-257):
`signature`, `r`, `s`, `v` always; `connection_id` exactly when a
connection id is supplied. -/
structure SignatureResult where
  signature : List Char
  r : List Char
  s : List Char
  v : Nat
  connection_id : Option (List Char)

/-- Embedding of `signature_to_map`. -/
def signature_to_map (sig : AlloySig) (connection_id : Option Hash32) :
    SignatureResult :=
  { signature := sigCombinedHex sig
    r := fmt0x64 sig.r
    s := fmt0x64 sig.s
    v := sigV sig
    connection_id := connection_id.map b256Hex }

/-! ## The exposed signing operations

Each definition mirrors the corresponding `#[rustler::nif]` function after
the boundary layer (key/JSON parsing) has produced its typed inputs: it
assembles the digest the Rust code assembles, applies the abstract signer,
and formats the result with `signature_to_map`, passing the same optional
connection id the Rust call site passes. -/

/-- Embedding of `sign_l1_action` (lib.rs lines 698-714). -/
def sign_l1_action (keccak : Keccak) (signFn : SignFn) (connection_id : Hash32)
    (is_mainnet : Bool) : SignatureResult :=
  signature_to_map (signFn (sign_l1_agent_digest keccak connection_id is_mainnet))
    (some connection_id)

/-- Embedding of `sign_exchange_action` (lib.rs lines 585-601). -/
def sign_exchange_action (keccak : Keccak) (signFn : SignFn) (action : Actions)
    (nonce : Nat) (is_mainnet : Bool) (vault : Option Address) : SignatureResult :=
  let cid := hash_action keccak action nonce vault
  signature_to_map (signFn (sign_l1_agent_digest keccak cid is_mainnet)) (some cid)

/-- Embedding of `sign_exchange_action_ex` (lib.rs lines 603-628). -/
def sign_exchange_action_ex (keccak : Keccak) (signFn : SignFn) (action : Actions)
    (nonce : Nat) (is_mainnet : Bool) (vault : Option Address)
    (expires_after : Option Nat) : SignatureResult :=
  let cid := hash_action_with_exp keccak action nonce vault expires_after
  signature_to_map (signFn (sign_l1_agent_digest keccak cid is_mainnet)) (some cid)

/-- Embedding of `sign_usd_send` (lib.rs lines 638-647). -/
def sign_usd_send (keccak : Keccak) (signFn : SignFn) (destination amount : String)
    (time : Nat) (is_mainnet : Bool) : SignatureResult :=
  let c := chain is_mainnet
  let payload : UsdSend :=
    { signature_chain_id := c.1, hyperliquid_chain := c.2, destination, amount, time }
  signature_to_map
    (signFn (eip712_signing_hash keccak (domainSeparator keccak payload.domain)
      (payload.structHash keccak))) none

/-- Embedding of `sign_withdraw3` (lib.rs lines 649-658). -/
def sign_withdraw3 (keccak : Keccak) (signFn : SignFn) (destination amount : String)
    (time : Nat) (is_mainnet : Bool) : SignatureResult :=
  let c := chain is_mainnet
  let payload : Withdraw3 :=
    { signature_chain_id := c.1, hyperliquid_chain := c.2, destination, amount, time }
  signature_to_map
    (signFn (eip712_signing_hash keccak (domainSeparator keccak payload.domain)
      (payload.structHash keccak))) none

/-- Embedding of `sign_spot_send` (lib.rs lines 660-669). -/
def sign_spot_send (keccak : Keccak) (signFn : SignFn)
    (destination token amount : String) (time : Nat) (is_mainnet : Bool) :
    SignatureResult :=
  let c := chain is_mainnet
  let payload : SpotSend :=
    { signature_chain_id := c.1, hyperliquid_chain := c.2, destination, token,
      amount, time }
  signature_to_map
    (signFn (eip712_signing_hash keccak (domainSeparator keccak payload.domain)
      (payload.structHash keccak))) none

/-- Embedding of `sign_approve_builder_fee` (lib.rs lines 671-682). -/
def sign_approve_builder_fee (keccak : Keccak) (signFn : SignFn) (builder : Address)
    (max_fee_rate : String) (nonce : Nat) (is_mainnet : Bool) : SignatureResult :=
  let c := chain is_mainnet
  let payload : ApproveBuilderFee :=
    { signature_chain_id := c.1, hyperliquid_chain := c.2, builder, max_fee_rate,
      nonce }
  signature_to_map
    (signFn (eip712_signing_hash keccak (domainSeparator keccak payload.domain)
      (payload.structHash keccak))) none

/-- Embedding of `sign_approve_agent` (lib.rs lines 684-695). -/
def sign_approve_agent (keccak : Keccak) (signFn : SignFn) (agent_address : Address)
    (agent_name : Option String) (nonce : Nat) (is_mainnet : Bool) :
    SignatureResult :=
  let c := chain is_mainnet
  let payload : ApproveAgent :=
    { signature_chain_id := c.1, hyperliquid_chain := c.2, agent_address,
      agent_name, nonce }
  signature_to_map
    (signFn (eip712_signing_hash keccak (domainSeparator keccak payload.domain)
      (payload.structHash keccak))) none

/-- Embedding of `sign_typed_data` (lib.rs lines 133-172) after the generic
EIP-712 digest has been produced: the signature is formatted with no
connection id. -/
def sign_typed_data_op (signFn : SignFn) (digest : Hash32) : SignatureResult :=
  signature_to_map (signFn digest) none

/-! ## Multi-sig signing (`sign_multi_sig_action_ex`) -/

/-- ASCII hex digit test on a character. -/
def isHexDigitChar (c : Char) : Bool :=
  decide ((48 ≤ c.toNat ∧ c.toNat ≤ 57) ∨ (97 ≤ c.toNat ∧ c.toNat ≤ 102) ∨
    (65 ≤ c.toNat ∧ c.toNat ≤ 70))

/-- Numeric value of an ASCII hex digit character. -/
def hexDigitVal (c : Char) : Nat :=
  if c.toNat ≤ 57 then c.toNat - 48
  else if c.toNat ≤ 70 then c.toNat - 55
  else c.toNat - 87

/-- Base-16 value of a digit string (most significant first). -/
def hexValNat (cs : List Char) : Nat :=
  cs.foldl (fun acc c => 16 * acc + hexDigitVal c) 0

/-- Embedding of `u64::from_str_radix(s, 16)`: an optional leading plus
sign, then at least one hex digit, value within the u64 range; anything
else is an error (formatted as the Rust code formats it). -/
def parseHexU64 (cs : List Char) : Except String Nat :=
  let ds := if cs.head? = some '+' then cs.tail else cs
  if ds = [] then
    .error "invalid signatureChainId: cannot parse integer from empty string"
  else if ds.all isHexDigitChar then
    if hexValNat ds < 18446744073709551616 then .ok (hexValNat ds)
    else .error "invalid signatureChainId: number too large to fit in target type"
  else .error "invalid signatureChainId: invalid digit found in string"

/-- Embedding of the `signatureChainId` extraction in
`sign_multi_sig_action_ex` (lib.rs lines 104-116): the action must be a
JSON object; a string value starting with "0x" or "0X" is parsed base-16;
a number value is taken via `as_u64`; everything else is an error. -/
def parseSigChainId (v : Json) : Except String Nat :=
  match v with
  | .obj fields =>
    match fields.lookup "signatureChainId" with
    | some (.str s) =>
        if s.data.take 2 = ['0', 'x'] ∨ s.data.take 2 = ['0', 'X'] then
          parseHexU64 (s.data.drop 2)
        else .error "missing signatureChainId"
    | some (.uint n) =>
        if n < 18446744073709551616 then .ok n
        else .error "invalid signatureChainId number"
    | some (.int i) =>
        if 0 ≤ i ∧ i < 18446744073709551616 then .ok i.toNat
        else .error "invalid signatureChainId number"
    | _ => .error "missing signatureChainId"
  | _ => .error "action must be a JSON object"

/-- The `SendMultiSig` payload `sign_multi_sig_action_ex` builds (lib.rs
lines 118-124) once the chain id has parsed: the multi-sig action hash is
the generic JSON hash of the whole action object. -/
def sign_multi_sig_payload (keccak : Keccak) (value : Json) (nonce : Nat)
    (is_mainnet : Bool) (vault : Option Address) (expires_after : Option Nat) :
    Except String SendMultiSig :=
  match parseSigChainId value with
  | .error e => .error e
  | .ok sig_chain_id =>
      .ok { signature_chain_id := sig_chain_id
            hyperliquid_chain := if is_mainnet then "Mainnet" else "Testnet"
            multi_sig_action_hash :=
              hash_json_value_with_exp keccak value nonce vault expires_after
            nonce }

/-- Embedding of `sign_multi_sig_action_ex` (lib.rs lines 85-130): a
parse failure aborts with the error and no signature; otherwise the
payload's EIP-712 digest is signed and formatted with no connection id. -/
def sign_multi_sig_action_ex (keccak : Keccak) (signFn : SignFn) (value : Json)
    (nonce : Nat) (is_mainnet : Bool) (vault : Option Address)
    (expires_after : Option Nat) : Except String SignatureResult :=
  match sign_multi_sig_payload keccak value nonce is_mainnet vault expires_after with
  | .error e => .error e
  | .ok payload =>
      .ok (signature_to_map (signFn (sendMultiSigDigest keccak payload)) none)

/-! ## EIP-55 checksum addresses (`to_checksum_address`)

The Rust code works on the string's bytes; the embedding uses the ASCII
byte list directly (whitespace is modelled as the ASCII whitespace bytes,
the only ones relevant to the claims). -/

/-- ASCII whitespace byte. -/
def isWsByte (b : Nat) : Bool := decide (b = 32 ∨ (9 ≤ b ∧ b ≤ 13))

/-- ASCII hex digit byte. -/
def isHexB (b : Nat) : Bool :=
  decide ((48 ≤ b ∧ b ≤ 57) ∨ (97 ≤ b ∧ b ≤ 102) ∨ (65 ≤ b ∧ b ≤ 70))

/-- ASCII lowercasing of a byte (Rust `to_lowercase` on these inputs). -/
def lowerB (b : Nat) : Nat := if 65 ≤ b ∧ b ≤ 90 then b + 32 else b

/-- ASCII uppercasing of a byte (Rust `to_ascii_uppercase`). -/
def upperB (b : Nat) : Nat := if 97 ≤ b ∧ b ≤ 122 then b - 32 else b

/-- Embedding of `str::trim`: surrounding whitespace removed. -/
def trimBytes (l : List Nat) : List Nat :=
  ((l.dropWhile isWsByte).reverse.dropWhile isWsByte).reverse

/-- Embedding of `str::trim_start_matches` with a two-character pattern:
the pattern is removed from the start repeatedly. -/
def stripPairAll (a b : Nat) : List Nat → List Nat
  | x :: y :: rest =>
      if x = a ∧ y = b then stripPairAll a b rest else x :: y :: rest
  | l => l

/-- The 64 hex-digit values of a 32-byte hash, in rendering order (the
characters of `format!` hex output on `B256`). -/
def hashNibbles (h : Hash32) : List Nat :=
  catMap (fun b => [b / 16 % 16, b % 16]) h.val

/-- Embedding of `to_checksum_address` (lib.rs lines 716-750): trim, strip
"0x" then "0X" prefixes repeatedly, validate 40 hex characters, lowercase,
hash the lowercase ASCII hex characters, then uppercase each position whose
hash nibble is at least 8. Bytes 48 and 120 are '0' and 'x'; 88 is 'X'. -/
def to_checksum_address (keccak : Keccak) (address : List Nat) :
    Except String (List Nat) :=
  let raw := stripPairAll 48 88 (stripPairAll 48 120 (trimBytes address))
  if raw.length = 40 ∧ raw.all isHexB then
    let lower := raw.map lowerB
    let nibbles := hashNibbles (keccak lower)
    .ok (48 :: 120 ::
      lower.enum.map (fun p => if 8 ≤ nibbles.getD p.1 0 then upperB p.2 else p.2))
  else .error "invalid address; expected 40 hex chars (with or without 0x)"

/-! ## Spec-side formulations and concrete instances used by the theorems -/

/-- The vault marker as the spec describes it: byte 1 and the raw address
bytes when present, the single byte 0 when absent. -/
def vaultMarker : Option Address → List Nat
  | some addr => 1 :: addr
  | none => [0]

/-- The expiry marker as the spec describes it: byte 0 and 8 big-endian
bytes when present, nothing at all when absent. -/
def expiryMarker : Option Nat → List Nat
  | some e => 0 :: beBytes 8 e
  | none => []

/-- Base-16 value of a big-endian digit list. -/
def natOfDigits (ds : List Nat) : Nat := ds.foldl (fun acc d => 16 * acc + d) 0

/-- A concrete hash function (all-zero output) used to instantiate the
abstract `Keccak` parameter in witnesses and counterexamples; the
properties exercised there do not depend on the hash function. -/
def zeroKeccak : Keccak := fun _ => ⟨List.replicate 32 0, by simp⟩

/-- A concrete hash function keeping the first 32 bytes of its input,
zero-padded; used to make witness instances sensitive to the hashed
bytes. -/
def truncKeccak : Keccak :=
  fun l => ⟨(l ++ List.replicate 32 0).take 32, by
    rw [List.length_take, List.length_append, List.length_replicate]; omega⟩

/-- Removal of one optional "0x"/"0X" prefix — the stripping step exactly
as the claim words it (a single optional prefix), for comparison with the
repeated stripping the code performs. -/
def stripOnePfx (l : List Nat) : List Nat :=
  match l with
  | 48 :: 120 :: rest => rest
  | 48 :: 88 :: rest => rest
  | l => l

/-- The checksum casing rule as the claim words it: position `i` of the
lowercase address is uppercased exactly when the `i`-th hex digit of the
hash of the lowercase ASCII hex string is at least 8. -/
def checksumSpecMap (keccak : Keccak) (lower : List Nat) : List Nat :=
  (List.range lower.length).map
    (fun i => if 8 ≤ (hashNibbles (keccak lower)).getD i 0 then upperB (lower.getD i 0)
      else lower.getD i 0)

/-- A concrete vault-transfer action (zero address, deposit, zero amount). -/
def vtCex : Actions :=
  .vaultTransfer { vault_address := List.replicate 20 0, is_deposit := true, usd := 0 }

/-- The ASCII bytes of "0x0x" followed by forty '0' characters. -/
def cexAddr : List Nat := [48, 120, 48, 120] ++ List.replicate 40 48

/-- Lowercase-hex byte: an ASCII digit or one of 'a'-'f'. -/
def isLowerHexB (b : Nat) : Bool :=
  decide ((48 ≤ b ∧ b ≤ 57) ∨ (97 ≤ b ∧ b ≤ 102))

/-! ## Helper lemmas -/

theorem beBytes_length : ∀ (k n : Nat), (beBytes k n).length = k
  | 0, _ => rfl
  | k + 1, n => by simp [beBytes, beBytes_length k]

theorem hexDigitsBE_length : ∀ (k n : Nat), (hexDigitsBE k n).length = k
  | 0, _ => rfl
  | k + 1, n => by simp [hexDigitsBE, hexDigitsBE_length k]

/-! ## Claim theorems -/

/-- C1: for every supported action, nonce, optional vault address and
optional expiresAfter, the action hash is keccak256 of the concatenation
of the canonical msgpack encoding of the action, the nonce as 8 big-endian
bytes, the vault marker (1 + 20 address bytes when present, the single
byte 0 when absent), and the expiry marker (0 + 8 big-endian bytes when
present, nothing when absent); likewise for the generic JSON-value path. -/
theorem action_hash_is_keccak_of_concatenation :
    ∀ (keccak : Keccak) (a : Actions) (value : Json) (nonce : Nat)
      (vault : Option Address) (expires : Option Nat),
    hash_action_with_exp keccak a nonce vault expires =
      keccak (mpOfActions a ++ beBytes 8 nonce ++ vaultMarker vault ++
        expiryMarker expires) ∧
    hash_json_value_with_exp keccak value nonce vault expires =
      keccak (mpOfJson value ++ beBytes 8 nonce ++ vaultMarker vault ++
        expiryMarker expires) := by
  intro keccak a value nonce vault expires
  constructor <;>
    cases vault <;> cases expires <;>
      simp [hash_action_with_exp, hash_json_value_with_exp, action_hash_input,
        json_hash_input, vaultMarker, expiryMarker, List.append_assoc]

/-- C3: every EIP-712 signing digest — via the fixed-schema trait default
or the generic typed-data path — is keccak256 of exactly 66 bytes: 0x19,
0x01, the 32-byte domain separator, the 32-byte struct hash. -/
theorem eip712_digest_formula :
    ∀ (keccak : Keccak) (domainHash structHash : Hash32),
    eip712_signing_hash keccak domainHash structHash =
        keccak ([0x19, 0x01] ++ domainHash.val ++ structHash.val) ∧
    genericTypedDataDigest keccak domainHash structHash =
        keccak ([0x19, 0x01] ++ domainHash.val ++ structHash.val) ∧
    ([0x19, 0x01] ++ domainHash.val ++ structHash.val).length = 66 := by
  intro keccak d s
  refine ⟨rfl, rfl, ?_⟩
  simp [d.property, s.property]

/-- C5: every fixed-schema convenience signing operation uses the numeric
domain chain id 42161 for both network variants; the network only selects
the hyperliquidChain string field ("Mainnet" when is_mainnet, else
"Testnet"). -/
theorem fixed_chain_id_both_networks :
    ∀ (keccak : Keccak) (signFn : SignFn) (is_mainnet : Bool)
      (destination amount token max_fee_rate : String)
      (builder agent_address : Address) (agent_name : Option String)
      (t nonce : Nat),
    (chain is_mainnet).1 = 42161 ∧
    (chain is_mainnet).2 = (if is_mainnet then "Mainnet" else "Testnet") ∧
    (tx_domain 42161).chainId = 42161 ∧
    sign_usd_send keccak signFn destination amount t is_mainnet =
      signature_to_map (signFn (eip712_signing_hash keccak
        (domainSeparator keccak (tx_domain 42161))
        (UsdSend.structHash keccak
          { signature_chain_id := 42161,
            hyperliquid_chain := if is_mainnet then "Mainnet" else "Testnet",
            destination, amount, time := t }))) none ∧
    sign_withdraw3 keccak signFn destination amount t is_mainnet =
      signature_to_map (signFn (eip712_signing_hash keccak
        (domainSeparator keccak (tx_domain 42161))
        (Withdraw3.structHash keccak
          { signature_chain_id := 42161,
            hyperliquid_chain := if is_mainnet then "Mainnet" else "Testnet",
            destination, amount, time := t }))) none ∧
    sign_spot_send keccak signFn destination token amount t is_mainnet =
      signature_to_map (signFn (eip712_signing_hash keccak
        (domainSeparator keccak (tx_domain 42161))
        (SpotSend.structHash keccak
          { signature_chain_id := 42161,
            hyperliquid_chain := if is_mainnet then "Mainnet" else "Testnet",
            destination, token, amount, time := t }))) none ∧
    sign_approve_builder_fee keccak signFn builder max_fee_rate nonce is_mainnet =
      signature_to_map (signFn (eip712_signing_hash keccak
        (domainSeparator keccak (tx_domain 42161))
        (ApproveBuilderFee.structHash keccak
          { signature_chain_id := 42161,
            hyperliquid_chain := if is_mainnet then "Mainnet" else "Testnet",
            builder, max_fee_rate, nonce }))) none ∧
    sign_approve_agent keccak signFn agent_address agent_name nonce is_mainnet =
      signature_to_map (signFn (eip712_signing_hash keccak
        (domainSeparator keccak (tx_domain 42161))
        (ApproveAgent.structHash keccak
          { signature_chain_id := 42161,
            hyperliquid_chain := if is_mainnet then "Mainnet" else "Testnet",
            agent_address, agent_name, nonce }))) none := by
  intro keccak signFn b destination amount token max_fee_rate builder agent_address
    agent_name t nonce
  exact ⟨rfl, rfl, rfl, rfl, rfl, rfl, rfl, rfl⟩

/-- C10: signL1Action and signExchangeAction sign the EIP-712 digest of
the Agent struct under the fixed domain (Exchange, version 1, chain id
1337, zero verifying contract) with source "a" on mainnet and "b"
otherwise; the digest is a function of the connection id and the network
flag only, and the agent domain's chain id is 1337, not the protocol's
42161. -/
theorem l1_agent_digest_fixed_domain :
    ∀ (keccak : Keccak) (signFn : SignFn) (cid : Hash32) (is_mainnet : Bool)
      (a : Actions) (nonce : Nat) (vault : Option Address),
    sign_l1_agent_digest keccak cid is_mainnet =
      eip712_signing_hash keccak
        (domainSeparator keccak
          { name := "Exchange", version := "1", chainId := 1337,
            verifyingContract := List.replicate 20 0 })
        (agentStructHash keccak (if is_mainnet then "a" else "b") cid) ∧
    agentDomain.chainId = 1337 ∧
    agentDomain.chainId ≠ 42161 ∧
    sign_l1_action keccak signFn cid is_mainnet =
      signature_to_map (signFn (sign_l1_agent_digest keccak cid is_mainnet))
        (some cid) ∧
    sign_exchange_action keccak signFn a nonce is_mainnet vault =
      signature_to_map
        (signFn (sign_l1_agent_digest keccak (hash_action keccak a nonce vault)
          is_mainnet))
        (some (hash_action keccak a nonce vault)) := by
  intro keccak signFn cid b a nonce vault
  exact ⟨rfl, rfl, by decide, rfl, rfl⟩

/-- C4 counterexample: with the vault address present the hashed byte
sequence is exactly 20 bytes longer than with it absent — not 21 as the
claim states, because the absent case still contributes the one-byte 0
marker. Shown at a concrete action, nonce and 20-byte address. -/
theorem vault_marker_extra_bytes_counterexample :
    (action_hash_input Actions.claimRewards 0 (some (List.replicate 20 0))
        none).length ≠
      (action_hash_input Actions.claimRewards 0 none none).length + 21 ∧
    (action_hash_input Actions.claimRewards 0 (some (List.replicate 20 0))
        none).length =
      (action_hash_input Actions.claimRewards 0 none none).length + 20 := by
  decide

/-- C4 (amended): supplying a vault address makes the hashed byte sequence
exactly 20 bytes longer than the otherwise-identical call without one (the
1-byte marker is present either way; the 20 address bytes are the
surplus), and supplying expiresAfter makes it exactly 9 bytes (1 marker +
8 value bytes) longer, while omitting expiresAfter appends nothing. -/
theorem action_hash_marker_lengths :
    ∀ (a : Actions) (nonce : Nat) (addr : Address) (vault : Option Address)
      (e : Nat),
    addr.length = 20 →
    ((action_hash_input a nonce (some addr) none).length =
      (action_hash_input a nonce none none).length + 20 ∧
     (action_hash_input a nonce vault (some e)).length =
      (action_hash_input a nonce vault none).length + 9) := by
  intro a nonce addr vault e h
  constructor
  · simp [action_hash_input, beBytes_length, h]
  · cases vault <;> (simp [action_hash_input, beBytes_length]; try omega)

/-- C4 witness: the amended theorem applied at a concrete action, nonce
and 20-byte address. -/
theorem action_hash_marker_lengths_witness :
    (List.replicate 20 0).length = 20 ∧
    ((action_hash_input Actions.claimRewards 5 (some (List.replicate 20 0))
        none).length =
      (action_hash_input Actions.claimRewards 5 none none).length + 20 ∧
     (action_hash_input Actions.claimRewards 5 none (some 7)).length =
      (action_hash_input Actions.claimRewards 5 none none).length + 9) :=
  ⟨by decide,
   action_hash_marker_lengths Actions.claimRewards 5 (List.replicate 20 0) none 7
     (by decide)⟩

theorem hexDigitsBE_foldl :
    ∀ (k n acc : Nat),
    (hexDigitsBE k n).foldl (fun a d => 16 * a + d) acc = acc * 16 ^ k + n % 16 ^ k := by
  intro k
  induction k with
  | zero => intro n acc; simp [hexDigitsBE, Nat.mod_one]
  | succ k ih =>
      intro n acc
      simp only [hexDigitsBE, List.foldl_cons, ih]
      rw [Nat.pow_succ, Nat.mod_mul]
      ring

theorem hexDigitsBE_mem_lt :
    ∀ (k n d : Nat), d ∈ hexDigitsBE k n → d < 16 := by
  intro k
  induction k with
  | zero => intro n d h; simp [hexDigitsBE] at h
  | succ k ih =>
      intro n d h
      simp only [hexDigitsBE, List.mem_cons] at h
      rcases h with h | h
      · omega
      · exact ih n d h

theorem hexCharOfNibble_hex :
    ∀ (d : Nat), d < 16 → isHexDigitChar (hexCharOfNibble d) = true := by
  intro d h
  interval_cases d <;> decide

theorem padHex64_length : ∀ (n : Nat), (padHex64 n).length = 64 := by
  intro n
  simp [padHex64, hexDigitsBE_length]

theorem padHex64_all_hex :
    ∀ (n : Nat), (padHex64 n).all isHexDigitChar = true := by
  intro n
  rw [List.all_eq_true]
  intro c hc
  rcases List.mem_map.mp hc with ⟨d, hd, rfl⟩
  exact hexCharOfNibble_hex d (hexDigitsBE_mem_lt 64 n d hd)

/-- C6: every returned signature renders r and s as "0x" plus exactly 64
hex characters encoding the value zero-padded regardless of magnitude, v
is the recovery id plus 27 (hence 27 or 28), the combined signature is
"0x" plus 130 hex characters, and the connection id field is present in
the result exactly for the L1-style operations (signL1Action,
signExchangeAction and its expiry-aware variant) and absent for all
others. -/
theorem signature_result_format :
    ∀ (sig : AlloySig) (cid : Option Hash32) (keccak : Keccak) (signFn : SignFn)
      (connection_id digest : Hash32) (is_mainnet : Bool) (a : Actions)
      (value : Json) (nonce t : Nat) (vault : Option Address)
      (expires : Option Nat) (destination token amount max_fee_rate : String)
      (builder agent_address : Address) (agent_name : Option String),
    ((signature_to_map sig cid).r = '0' :: 'x' :: padHex64 sig.r ∧
     (signature_to_map sig cid).s = '0' :: 'x' :: padHex64 sig.s ∧
     (padHex64 sig.r).length = 64 ∧ (padHex64 sig.s).length = 64 ∧
     (padHex64 sig.r).all isHexDigitChar = true ∧
     (padHex64 sig.s).all isHexDigitChar = true ∧
     natOfDigits (hexDigitsBE 64 sig.r) = sig.r % 16 ^ 64 ∧
     natOfDigits (hexDigitsBE 64 sig.s) = sig.s % 16 ^ 64) ∧
    ((signature_to_map sig cid).v = 27 + (if sig.yParity then 1 else 0) ∧
     ((signature_to_map sig cid).v = 27 ∨ (signature_to_map sig cid).v = 28)) ∧
    ((signature_to_map sig cid).signature.length = 132 ∧
     (signature_to_map sig cid).signature.take 2 = ['0', 'x']) ∧
    (signature_to_map sig cid).connection_id.isSome = cid.isSome ∧
    ((sign_l1_action keccak signFn connection_id is_mainnet).connection_id.isSome
        = true ∧
     (sign_exchange_action keccak signFn a nonce is_mainnet
        vault).connection_id.isSome = true ∧
     (sign_exchange_action_ex keccak signFn a nonce is_mainnet vault
        expires).connection_id.isSome = true ∧
     (sign_usd_send keccak signFn destination amount t
        is_mainnet).connection_id = none ∧
     (sign_withdraw3 keccak signFn destination amount t
        is_mainnet).connection_id = none ∧
     (sign_spot_send keccak signFn destination token amount t
        is_mainnet).connection_id = none ∧
     (sign_approve_builder_fee keccak signFn builder max_fee_rate nonce
        is_mainnet).connection_id = none ∧
     (sign_approve_agent keccak signFn agent_address agent_name nonce
        is_mainnet).connection_id = none ∧
     (sign_typed_data_op signFn digest).connection_id = none ∧
     (match sign_multi_sig_action_ex keccak signFn value nonce is_mainnet vault
        expires with
       | .ok res => res.connection_id = none
       | .error _ => True)) := by
  intro sig cid keccak signFn connection_id digest is_mainnet a value nonce t
    vault expires destination token amount max_fee_rate builder agent_address
    agent_name
  refine ⟨⟨rfl, rfl, padHex64_length _, padHex64_length _, padHex64_all_hex _,
      padHex64_all_hex _, ?_, ?_⟩, ⟨rfl, ?_⟩, ⟨?_, rfl⟩, ?_, ?_⟩
  · simp [natOfDigits, hexDigitsBE_foldl]
  · simp [natOfDigits, hexDigitsBE_foldl]
  · rcases sig with ⟨r, s, p⟩
    cases p <;> simp [signature_to_map, sigV]
  · simp [signature_to_map, sigCombinedHex, padHex64_length, hexDigitsBE_length]
  · cases cid <;> rfl
  · refine ⟨rfl, rfl, rfl, rfl, rfl, rfl, rfl, rfl, rfl, ?_⟩
    unfold sign_multi_sig_action_ex
    cases sign_multi_sig_payload keccak value nonce is_mainnet vault expires <;>
      simp [signature_to_map]

/-- C7: signMultiSigAction reads the numeric signature-chain id from the
top-level signatureChainId field of the action object, accepting a
0x-prefixed hex string (parsed base-16) or a plain JSON number; a
non-object action, a missing field, or a value of neither accepted form
aborts with an error and no signature; on success the parsed value is the
numeric chain id of the SendMultiSig EIP-712 domain. -/
theorem multi_sig_chain_id_semantics :
    (∀ (keccak : Keccak) (signFn : SignFn) (v : Json) (nonce : Nat) (b : Bool)
       (va : Option Address) (e : Option Nat),
     sign_multi_sig_action_ex keccak signFn v nonce b va e =
       match parseSigChainId v with
       | .error msg => .error msg
       | .ok c =>
           .ok (signature_to_map (signFn (sendMultiSigDigest keccak
             { signature_chain_id := c
               hyperliquid_chain := if b then "Mainnet" else "Testnet"
               multi_sig_action_hash := hash_json_value_with_exp keccak v nonce va e
               nonce })) none)) ∧
    (∀ (p : SendMultiSig), p.domain.chainId = p.signature_chain_id) ∧
    (∀ (fs : List (String × Json)) (n : Nat),
       fs.lookup "signatureChainId" = some (.uint n) → n < 2 ^ 64 →
       parseSigChainId (.obj fs) = .ok n) ∧
    (∀ (fs : List (String × Json)) (s : String) (cs : List Char),
       fs.lookup "signatureChainId" = some (.str s) → s.data = '0' :: 'x' :: cs →
       cs ≠ [] → cs.all isHexDigitChar = true → hexValNat cs < 2 ^ 64 →
       parseSigChainId (.obj fs) = .ok (hexValNat cs)) ∧
    (∀ (fs : List (String × Json)),
       fs.lookup "signatureChainId" = none →
       parseSigChainId (.obj fs) = .error "missing signatureChainId") ∧
    (∀ (fs : List (String × Json)) (s : String),
       fs.lookup "signatureChainId" = some (.str s) →
       ¬(s.data.take 2 = ['0', 'x'] ∨ s.data.take 2 = ['0', 'X']) →
       parseSigChainId (.obj fs) = .error "missing signatureChainId") ∧
    (∀ (fs : List (String × Json)),
       fs.lookup "signatureChainId" = some .null →
       parseSigChainId (.obj fs) = .error "missing signatureChainId") ∧
    (∀ (fs : List (String × Json)) (i : Int),
       fs.lookup "signatureChainId" = some (.int i) → i < 0 →
       parseSigChainId (.obj fs) = .error "invalid signatureChainId number") ∧
    (∀ (s : String), parseSigChainId (.str s) = .error "action must be a JSON object") ∧
    parseSigChainId .null = .error "action must be a JSON object" := by
  refine ⟨?_, fun p => rfl, ?_, ?_, ?_, ?_, ?_, ?_, fun s => rfl, rfl⟩
  · intro keccak signFn v nonce b va e
    unfold sign_multi_sig_action_ex sign_multi_sig_payload
    cases parseSigChainId v <;> rfl
  · intro fs n hl hn
    have hn2 : n < 18446744073709551616 := by omega
    simp [parseSigChainId, hl, hn2]
  · intro fs s cs hl hs hne hhex hlt
    have hlt2 : hexValNat cs < 18446744073709551616 := by omega
    have htake : s.data.take 2 = ['0', 'x'] := by simp [hs]
    have hdrop : s.data.drop 2 = cs := by simp [hs]
    have hhead : ¬(cs.head? = some '+') := by
      cases cs with
      | nil => exact absurd rfl hne
      | cons c0 cr =>
          intro hc
          simp only [List.head?, Option.some.injEq] at hc
          subst hc
          rw [List.all_cons] at hhex
          exact absurd (Bool.and_elim_left hhex) (by decide)
    simp [parseSigChainId, hl, htake, hdrop, parseHexU64, hhead, hne, hhex, hlt2]
  · intro fs hl
    simp [parseSigChainId, hl]
  · intro fs s hl hts
    simp [parseSigChainId, hl, hts]
  · intro fs hl
    simp [parseSigChainId, hl]
  · intro fs i hl hi
    simp [parseSigChainId, hl]
    omega

/-- C7 witness: the parse semantics applied at a concrete numeric field
and at a concrete 0x-prefixed hex field. -/
theorem multi_sig_chain_id_semantics_witness :
    parseSigChainId (.obj [("signatureChainId", Json.uint 999)]) = .ok 999 ∧
    parseSigChainId (.obj [("signatureChainId", Json.str "0x66eee")]) =
      .ok (hexValNat ['6', '6', 'e', 'e', 'e']) :=
  ⟨multi_sig_chain_id_semantics.2.2.1 [("signatureChainId", Json.uint 999)] 999
    rfl (by decide),
   multi_sig_chain_id_semantics.2.2.2.1 [("signatureChainId", Json.str "0x66eee")]
    "0x66eee" ['6', '6', 'e', 'e', 'e'] rfl rfl (by decide) (by decide) (by decide)⟩

theorem mpOfJson_obj (fs : List (String × Json)) :
    mpOfJson (.obj fs) = mapHeader fs.length ++ mpOfJsonFields fs := by
  simp [mpOfJson]

theorem mpOfJson_arr (xs : List Json) :
    mpOfJson (.arr xs) = arrHeader xs.length ++ mpOfJsonList xs := by
  simp [mpOfJson]

theorem mpOfJson_str (s : String) : mpOfJson (.str s) = mpStr s := by
  simp [mpOfJson]

theorem mpOfJson_uint (n : Nat) : mpOfJson (.uint n) = mpUInt n := by
  simp [mpOfJson]

theorem mpOfJson_int (i : Int) : mpOfJson (.int i) = mpSInt i := by
  simp [mpOfJson]

theorem mpOfJson_bool (b : Bool) : mpOfJson (.bool b) = mpBool b := by
  simp [mpOfJson]

theorem mpOfJsonList_catMap (f : α → Json) (g : α → List Nat)
    (h : ∀ x, mpOfJson (f x) = g x) :
    ∀ (xs : List α), mpOfJsonList (xs.map f) = catMap g xs := by
  intro xs
  induction xs with
  | nil => rfl
  | cons x xs ih => simp [mpOfJsonList, catMap, h, ih]

theorem mpOfJson_limit (l : Limit) : mpOfJson (jsonOfLimit l) = mpLimit l := by
  simp [jsonOfLimit, mpLimit, mpOfJson_obj, mpOfJson_arr, mpOfJson_str, mpOfJson_uint, mpOfJson_int, mpOfJson_bool, mpOfJsonFields, mpKV]

theorem mpOfJson_trigger (t : Trigger) : mpOfJson (jsonOfTrigger t) = mpTrigger t := by
  simp [jsonOfTrigger, mpTrigger, mpOfJson_obj, mpOfJson_arr, mpOfJson_str, mpOfJson_uint, mpOfJson_int, mpOfJson_bool, mpOfJsonFields, mpKV]

theorem mpOfJson_orderTy (t : OrderTy) : mpOfJson (jsonOfOrderTy t) = mpOrderTy t := by
  cases t <;>
    simp [jsonOfOrderTy, mpOrderTy, mpOfJson_obj, mpOfJson_arr, mpOfJson_str, mpOfJson_uint, mpOfJson_int, mpOfJson_bool, mpOfJsonFields, mpKV,
      mpOfJson_limit, mpOfJson_trigger]

theorem mpOfJson_orderRequest (o : OrderRequest) :
    mpOfJson (jsonOfOrderRequest o) = mpOrderRequest o := by
  rcases o with ⟨asset, ib, px, sz, ro, ot, cl⟩
  cases cl <;>
    simp [jsonOfOrderRequest, mpOrderRequest, mpOfJson_obj, mpOfJson_arr, mpOfJson_str, mpOfJson_uint, mpOfJson_int, mpOfJson_bool, mpOfJsonFields, mpKV,
      mpOfJson_orderTy]

theorem mpOfJson_builderInfo (bi : BuilderInfo) :
    mpOfJson (jsonOfBuilderInfo bi) = mpBuilderInfo bi := by
  simp [jsonOfBuilderInfo, mpBuilderInfo, mpOfJson_obj, mpOfJson_arr, mpOfJson_str, mpOfJson_uint, mpOfJson_int, mpOfJson_bool, mpOfJsonFields, mpKV]

theorem mpOfJson_cancelRequest (c : CancelRequest) :
    mpOfJson (jsonOfCancelRequest c) = mpCancelRequest c := by
  simp [jsonOfCancelRequest, mpCancelRequest, mpOfJson_obj, mpOfJson_arr, mpOfJson_str, mpOfJson_uint, mpOfJson_int, mpOfJson_bool, mpOfJsonFields, mpKV]

theorem mpOfJson_cancelRequestCloid (c : CancelRequestCloid) :
    mpOfJson (jsonOfCancelRequestCloid c) = mpCancelRequestCloid c := by
  simp [jsonOfCancelRequestCloid, mpCancelRequestCloid, mpOfJson, mpOfJsonFields,
    mpKV]

theorem mpOfJson_modifyRequest (m : ModifyRequest) :
    mpOfJson (jsonOfModifyRequest m) = mpModifyRequest m := by
  simp [jsonOfModifyRequest, mpModifyRequest, mpOfJson_obj, mpOfJson_arr, mpOfJson_str, mpOfJson_uint, mpOfJson_int, mpOfJson_bool, mpOfJsonFields, mpKV,
    mpOfJson_orderRequest]

theorem mpOfJson_classTransfer (c : ClassTransfer) :
    mpOfJson (jsonOfClassTransfer c) = mpClassTransfer c := by
  simp [jsonOfClassTransfer, mpClassTransfer, mpOfJson_obj, mpOfJson_arr, mpOfJson_str, mpOfJson_uint, mpOfJson_int, mpOfJson_bool, mpOfJsonFields, mpKV]

theorem mpOfJson_jsonNum (i : Int) : mpOfJson (jsonNum i) = mpSInt i := by
  by_cases h : 0 ≤ i <;> simp [jsonNum, mpSInt, mpOfJson, h]

/-- The generic msgpack encoding of the canonical JSON tree of an action
agrees byte-for-byte with the typed msgpack encoding, for every variant
not carrying a raw address. -/
theorem mpOfJson_jsonOfActions (a : Actions) (h : a.hasRawAddress = false) :
    mpOfJson (jsonOfActions a) = mpOfActions a := by
  cases a with
  | updateLeverage u =>
      simp [jsonOfActions, mpOfActions, mpOfJson_obj, mpOfJson_arr, mpOfJson_str, mpOfJson_uint, mpOfJson_int, mpOfJson_bool, mpOfJsonFields, mpKV]
  | updateIsolatedMargin m =>
      simp [jsonOfActions, mpOfActions, mpOfJson_obj, mpOfJson_arr, mpOfJson_str, mpOfJson_uint, mpOfJson_int, mpOfJson_bool, mpOfJsonFields, mpKV,
        mpOfJson_jsonNum]
  | order b =>
      rcases b with ⟨orders, grouping, builder⟩
      cases builder <;>
        simp [jsonOfActions, mpOfActions, mpOfJson_obj, mpOfJson_arr, mpOfJson_str, mpOfJson_uint, mpOfJson_int, mpOfJson_bool, mpOfJsonFields, mpKV,
          mpOfJsonList_catMap jsonOfOrderRequest mpOrderRequest mpOfJson_orderRequest,
          mpOfJson_builderInfo]
  | cancel c =>
      simp [jsonOfActions, mpOfActions, mpOfJson_obj, mpOfJson_arr, mpOfJson_str, mpOfJson_uint, mpOfJson_int, mpOfJson_bool, mpOfJsonFields, mpKV,
        mpOfJsonList_catMap jsonOfCancelRequest mpCancelRequest mpOfJson_cancelRequest]
  | cancelByCloid c =>
      simp [jsonOfActions, mpOfActions, mpOfJson_obj, mpOfJson_arr, mpOfJson_str, mpOfJson_uint, mpOfJson_int, mpOfJson_bool, mpOfJsonFields, mpKV,
        mpOfJsonList_catMap jsonOfCancelRequestCloid mpCancelRequestCloid
          mpOfJson_cancelRequestCloid]
  | batchModify m =>
      simp [jsonOfActions, mpOfActions, mpOfJson_obj, mpOfJson_arr, mpOfJson_str, mpOfJson_uint, mpOfJson_int, mpOfJson_bool, mpOfJsonFields, mpKV,
        mpOfJsonList_catMap jsonOfModifyRequest mpModifyRequest mpOfJson_modifyRequest]
  | spotUser s =>
      simp [jsonOfActions, mpOfActions, mpOfJson_obj, mpOfJson_arr, mpOfJson_str, mpOfJson_uint, mpOfJson_int, mpOfJson_bool, mpOfJsonFields, mpKV,
        mpOfJson_classTransfer]
  | vaultTransfer v => simp [Actions.hasRawAddress] at h
  | subAccountTransfer t =>
      simp [jsonOfActions, mpOfActions, mpOfJson_obj, mpOfJson_arr, mpOfJson_str, mpOfJson_uint, mpOfJson_int, mpOfJson_bool, mpOfJsonFields, mpKV]
  | subAccountSpotTransfer t =>
      simp [jsonOfActions, mpOfActions, mpOfJson_obj, mpOfJson_arr, mpOfJson_str, mpOfJson_uint, mpOfJson_int, mpOfJson_bool, mpOfJsonFields, mpKV]
  | usdClassTransfer t =>
      simp [jsonOfActions, mpOfActions, mpOfJson_obj, mpOfJson_arr, mpOfJson_str, mpOfJson_uint, mpOfJson_int, mpOfJson_bool, mpOfJsonFields, mpKV]
  | setReferrer r =>
      simp [jsonOfActions, mpOfActions, mpOfJson_obj, mpOfJson_arr, mpOfJson_str, mpOfJson_uint, mpOfJson_int, mpOfJson_bool, mpOfJsonFields, mpKV]
  | evmUserModify e =>
      simp [jsonOfActions, mpOfActions, mpOfJson_obj, mpOfJson_arr, mpOfJson_str, mpOfJson_uint, mpOfJson_int, mpOfJson_bool, mpOfJsonFields, mpKV]
  | scheduleCancel s =>
      rcases s with ⟨time⟩
      cases time <;>
        simp [jsonOfActions, mpOfActions, mpOfJson_obj, mpOfJson_arr, mpOfJson_str, mpOfJson_uint, mpOfJson_int, mpOfJson_bool, mpOfJsonFields, mpKV]
  | claimRewards =>
      simp [jsonOfActions, mpOfActions, mpOfJson_obj, mpOfJson_arr, mpOfJson_str, mpOfJson_uint, mpOfJson_int, mpOfJson_bool, mpOfJsonFields, mpKV]

/-- C2 counterexample: for a concrete vault-transfer action the typed
encoder emits the 20 raw address bytes (msgpack bin format) while the
generic JSON encoder emits the 0x-prefixed hex string the JSON tree
carries, so the two canonical encodings — and the assembled hash inputs —
are not byte-identical, refuting the claimed equivalence for every
expressible action. -/
theorem generic_vs_typed_encoding_counterexample :
    mpOfJson (jsonOfActions vtCex) ≠ mpOfActions vtCex ∧
    json_hash_input (jsonOfActions vtCex) 0 none none ≠
      action_hash_input vtCex 0 none none := by
  decide

/-- C2 (amended): for every action whose variant carries no raw address
field (every variant except vaultTransfer), the generic JSON hashing path
and the fixed-schema path produce byte-identical canonical encodings and
hash inputs, hence the same 32-byte connection id for the same nonce and
vault address with expiresAfter absent. -/
theorem generic_matches_typed_for_non_address_actions :
    ∀ (keccak : Keccak) (a : Actions) (nonce : Nat) (vault : Option Address),
    a.hasRawAddress = false →
    (mpOfJson (jsonOfActions a) = mpOfActions a ∧
     json_hash_input (jsonOfActions a) nonce vault none =
       action_hash_input a nonce vault none ∧
     hash_json_value_with_exp keccak (jsonOfActions a) nonce vault none =
       hash_action keccak a nonce vault) := by
  intro keccak a nonce vault h
  have he := mpOfJson_jsonOfActions a h
  have hinput : json_hash_input (jsonOfActions a) nonce vault none =
      action_hash_input a nonce vault none := by
    cases vault <;> simp [json_hash_input, action_hash_input, he]
  exact ⟨he, hinput, congrArg keccak hinput⟩

/-- C2 witness: the amended equivalence at a concrete cancel action, with
a hash instance sensitive to the hashed bytes. -/
theorem generic_matches_typed_witness :
    (Actions.cancel { cancels := [{ asset := 3, oid := 77 }] }).hasRawAddress
      = false ∧
    hash_json_value_with_exp truncKeccak
        (jsonOfActions (Actions.cancel { cancels := [{ asset := 3, oid := 77 }] }))
        5 none none =
      hash_action truncKeccak
        (Actions.cancel { cancels := [{ asset := 3, oid := 77 }] }) 5 none :=
  ⟨rfl, (generic_matches_typed_for_non_address_actions truncKeccak
    (Actions.cancel { cancels := [{ asset := 3, oid := 77 }] }) 5 none rfl).2.2⟩

theorem dropWhile_eq_self_of_not (p : Nat → Bool) (l : List Nat)
    (h : ∀ x ∈ l, p x = false) : l.dropWhile p = l := by
  cases l with
  | nil => rfl
  | cons a t => simp [List.dropWhile_cons, h a (List.mem_cons_self a t)]

theorem trimBytes_eq_self (l : List Nat) (h : ∀ x ∈ l, isWsByte x = false) :
    trimBytes l = l := by
  unfold trimBytes
  rw [dropWhile_eq_self_of_not _ _ h]
  rw [dropWhile_eq_self_of_not _ _ (fun x hx => h x (List.mem_reverse.mp hx))]
  exact List.reverse_reverse l

theorem mem_of_mem_enumFrom :
    ∀ (l : List Nat) (s : Nat) (p : Nat × Nat), p ∈ List.enumFrom s l → p.2 ∈ l := by
  intro l
  induction l with
  | nil => intro s p h; simp [List.enumFrom] at h
  | cons a t ih =>
      intro s p h
      rcases List.mem_cons.mp h with rfl | h
      · exact List.mem_cons_self a t
      · exact List.mem_cons_of_mem a (ih (s + 1) p h)

theorem enumFrom_map_getD (g : Nat → Nat → Nat) :
    ∀ (l : List Nat) (s : Nat),
    (List.enumFrom s l).map (fun p => g p.1 p.2) =
      (List.range l.length).map (fun i => g (s + i) (l.getD i 0)) := by
  intro l
  induction l with
  | nil => intro s; simp
  | cons a t ih =>
      intro s
      rw [List.length_cons, List.range_succ_eq_map]
      simp only [List.enumFrom, List.map_cons, List.map_map]
      congr 1
      rw [ih (s + 1)]
      apply List.map_congr_left
      intro i _
      have h1 : s + (i + 1) = s + 1 + i := by omega
      simp [Function.comp, List.getD_cons_succ, List.getElem?_cons_succ, h1]

theorem not_ws_of_ge_48 (b : Nat) (h : 48 ≤ b) : isWsByte b = false := by
  simp [isWsByte]; omega

theorem hex_of_lowerHex (x : Nat) (h : isLowerHexB x = true) : isHexB x = true := by
  simp only [isLowerHexB, decide_eq_true_eq] at h
  simp only [isHexB, decide_eq_true_eq]
  omega

theorem lowerB_lowerHex (x : Nat) (h : isLowerHexB x = true) : lowerB x = x := by
  simp only [isLowerHexB, decide_eq_true_eq] at h
  simp only [lowerB]
  split_ifs <;> omega

theorem upperB_hex (x : Nat) (h : isLowerHexB x = true) : isHexB (upperB x) = true := by
  simp only [isLowerHexB, decide_eq_true_eq] at h
  simp only [isHexB, upperB, decide_eq_true_eq]
  split_ifs <;> omega

theorem lowerB_upperB (x : Nat) (h : isLowerHexB x = true) : lowerB (upperB x) = x := by
  simp only [isLowerHexB, decide_eq_true_eq] at h
  simp only [lowerB, upperB]
  split_ifs <;> omega

theorem lowerHex_ge48 (x : Nat) (h : isLowerHexB x = true) : 48 ≤ x := by
  simp only [isLowerHexB, decide_eq_true_eq] at h
  omega

theorem lowerHex_ne (x : Nat) (h : isLowerHexB x = true) : x ≠ 120 ∧ x ≠ 88 := by
  simp only [isLowerHexB, decide_eq_true_eq] at h
  omega

theorem upperB_ge48 (x : Nat) (h : isLowerHexB x = true) : 48 ≤ upperB x := by
  simp only [isLowerHexB, decide_eq_true_eq] at h
  simp only [upperB]
  split_ifs <;> omega

theorem upperB_ne (x : Nat) (h : isLowerHexB x = true) :
    upperB x ≠ 120 ∧ upperB x ≠ 88 := by
  simp only [isLowerHexB, decide_eq_true_eq] at h
  simp only [upperB]
  split_ifs <;> omega

theorem lowerB_of_hex (b : Nat) (h : isHexB b = true) :
    isLowerHexB (lowerB b) = true := by
  simp only [isHexB, decide_eq_true_eq] at h
  simp only [isLowerHexB, lowerB, decide_eq_true_eq]
  split_ifs <;> omega

theorem to_checksum_address_ok (keccak : Keccak) (address raw : List Nat)
    (hraw : stripPairAll 48 88 (stripPairAll 48 120 (trimBytes address)) = raw)
    (hlen : raw.length = 40) (hhex : raw.all isHexB = true) :
    to_checksum_address keccak address =
      .ok (48 :: 120 ::
        (raw.map lowerB).enum.map (fun p =>
          if 8 ≤ (hashNibbles (keccak (raw.map lowerB))).getD p.1 0 then upperB p.2
          else p.2)) := by
  unfold to_checksum_address
  rw [hraw, if_pos ⟨hlen, hhex⟩]

theorem to_checksum_address_error (keccak : Keccak) (address raw : List Nat)
    (hraw : stripPairAll 48 88 (stripPairAll 48 120 (trimBytes address)) = raw)
    (hbad : ¬(raw.length = 40 ∧ raw.all isHexB = true)) :
    to_checksum_address keccak address =
      .error "invalid address; expected 40 hex chars (with or without 0x)" := by
  unfold to_checksum_address
  rw [hraw, if_neg hbad]

theorem to_checksum_address_ok_inv (keccak : Keccak) (address y : List Nat)
    (h : to_checksum_address keccak address = .ok y) :
    (stripPairAll 48 88 (stripPairAll 48 120 (trimBytes address))).length = 40 ∧
    (stripPairAll 48 88 (stripPairAll 48 120 (trimBytes address))).all isHexB
      = true ∧
    y = 48 :: 120 ::
      ((stripPairAll 48 88 (stripPairAll 48 120 (trimBytes address))).map
        lowerB).enum.map (fun p =>
          if 8 ≤ (hashNibbles (keccak
              ((stripPairAll 48 88 (stripPairAll 48 120 (trimBytes address))).map
                lowerB))).getD p.1 0 then upperB p.2
          else p.2) := by
  simp only [to_checksum_address] at h
  split at h
  case isTrue hc =>
    injection h with h
    exact ⟨hc.1, hc.2, h.symm⟩
  case isFalse hc => exact absurd h (by simp)

theorem checksum_mix_props (raw lower ns mix : List Nat)
    (hhex : raw.all isHexB = true) (hlow : raw.map lowerB = lower)
    (hmix : lower.enum.map
      (fun p => if 8 ≤ ns.getD p.1 0 then upperB p.2 else p.2) = mix) :
    mix.length = raw.length ∧ mix.all isHexB = true ∧
    (∀ b ∈ mix, 48 ≤ b ∧ b ≠ 120 ∧ b ≠ 88) ∧ mix.map lowerB = lower := by
  subst hlow
  subst hmix
  have hlower : ∀ b ∈ raw.map lowerB, isLowerHexB b = true := by
    intro b hb
    rcases List.mem_map.mp hb with ⟨v, hv, rfl⟩
    exact lowerB_of_hex v (List.all_eq_true.mp hhex v hv)
  refine ⟨?_, ?_, ?_, ?_⟩
  · simp [List.enum_length]
  · rw [List.all_eq_true]
    intro b hb
    rcases List.mem_map.mp hb with ⟨p, hp, rfl⟩
    have h2 := hlower p.2 (mem_of_mem_enumFrom _ 0 p hp)
    by_cases hc : 8 ≤ ns.getD p.1 0
    · rw [if_pos hc]; exact upperB_hex p.2 h2
    · rw [if_neg hc]; exact hex_of_lowerHex p.2 h2
  · intro b hb
    rcases List.mem_map.mp hb with ⟨p, hp, rfl⟩
    have h2 := hlower p.2 (mem_of_mem_enumFrom _ 0 p hp)
    by_cases hc : 8 ≤ ns.getD p.1 0
    · simp only [if_pos hc]
      exact ⟨upperB_ge48 p.2 h2, (upperB_ne p.2 h2).1, (upperB_ne p.2 h2).2⟩
    · simp only [if_neg hc]
      exact ⟨lowerHex_ge48 p.2 h2, (lowerHex_ne p.2 h2).1, (lowerHex_ne p.2 h2).2⟩
  · rw [List.map_map]
    have hcg : ∀ p ∈ (raw.map lowerB).enum,
        (lowerB ∘ fun p => if 8 ≤ ns.getD p.1 0 then upperB p.2 else p.2) p =
          Prod.snd p := by
      intro p hp
      have h2 := hlower p.2 (mem_of_mem_enumFrom _ 0 p hp)
      by_cases hc : 8 ≤ ns.getD p.1 0
      · simp only [Function.comp]
        rw [if_pos hc]
        exact lowerB_upperB p.2 h2
      · simp only [Function.comp]
        rw [if_neg hc]
        exact lowerB_lowerHex p.2 h2
    rw [List.map_congr_left hcg, List.enum_map_snd]

/-- C9: checksumAddress is idempotent — feeding a successful output back in
succeeds and returns the same output; it is case-insensitive — two valid
inputs whose stripped forms agree after lowercasing produce the same
output; and the output's lowercase form (after its 0x prefix) is the
canonical lowercase address. -/
theorem checksum_idempotent_case_invariant :
    (∀ (keccak : Keccak) (x y : List Nat),
       to_checksum_address keccak x = .ok y →
       to_checksum_address keccak y = .ok y) ∧
    (∀ (keccak : Keccak) (xa xb : List Nat),
       (stripPairAll 48 88 (stripPairAll 48 120 (trimBytes xa))).length = 40 →
       (stripPairAll 48 88 (stripPairAll 48 120 (trimBytes xa))).all isHexB = true →
       (stripPairAll 48 88 (stripPairAll 48 120 (trimBytes xb))).length = 40 →
       (stripPairAll 48 88 (stripPairAll 48 120 (trimBytes xb))).all isHexB = true →
       (stripPairAll 48 88 (stripPairAll 48 120 (trimBytes xa))).map lowerB =
         (stripPairAll 48 88 (stripPairAll 48 120 (trimBytes xb))).map lowerB →
       to_checksum_address keccak xa = to_checksum_address keccak xb) ∧
    (∀ (keccak : Keccak) (x y : List Nat),
       to_checksum_address keccak x = .ok y →
       (y.drop 2).map lowerB =
         (stripPairAll 48 88 (stripPairAll 48 120 (trimBytes x))).map lowerB) := by
  have main : ∀ (keccak : Keccak) (x y : List Nat),
      to_checksum_address keccak x = .ok y →
      to_checksum_address keccak y = .ok y ∧
      (y.drop 2).map lowerB =
        (stripPairAll 48 88 (stripPairAll 48 120 (trimBytes x))).map lowerB := by
    intro keccak x y hok
    obtain ⟨hlen, hhex, hy⟩ := to_checksum_address_ok_inv keccak x y hok
    generalize hr : stripPairAll 48 88 (stripPairAll 48 120 (trimBytes x)) = raw
      at hlen hhex hy ⊢
    generalize hlw : raw.map lowerB = lower at hy ⊢
    generalize hnib : hashNibbles (keccak lower) = ns at hy
    generalize hmx : lower.enum.map
      (fun p => if 8 ≤ ns.getD p.1 0 then upperB p.2 else p.2) = mix at hy
    subst hy
    have hm := checksum_mix_props raw lower ns mix hhex hlw hmx
    have hmlen40 : mix.length = 40 := hm.1.trans hlen
    have hmne : mix ≠ [] := by
      intro hnil; rw [hnil] at hmlen40; simp at hmlen40
    obtain ⟨m0, t0, hm0⟩ := List.exists_cons_of_ne_nil hmne
    have ht0ne : t0 ≠ [] := by
      intro hnil; rw [hm0, hnil] at hmlen40; simp at hmlen40
    obtain ⟨m1, rest, hm1⟩ := List.exists_cons_of_ne_nil ht0ne
    have hmm : mix = m0 :: m1 :: rest := by rw [hm0, hm1]
    have hm1mem : m1 ∈ mix := by
      rw [hmm]; exact List.mem_cons_of_mem _ (List.mem_cons_self _ _)
    have h120 : m1 ≠ 120 := (hm.2.2.1 m1 hm1mem).2.1
    have h88 : m1 ≠ 88 := (hm.2.2.1 m1 hm1mem).2.2
    have htrim : trimBytes (48 :: 120 :: mix) = 48 :: 120 :: mix := by
      apply trimBytes_eq_self
      intro b hb
      rcases List.mem_cons.mp hb with rfl | hb
      · decide
      rcases List.mem_cons.mp hb with rfl | hb
      · decide
      · exact not_ws_of_ge_48 b (hm.2.2.1 b hb).1
    have hstrip1 : stripPairAll 48 120 (48 :: 120 :: mix) = mix := by
      have h1 : stripPairAll 48 120 (48 :: 120 :: mix) = stripPairAll 48 120 mix := by
        simp [stripPairAll]
      rw [h1, hmm]
      simp [stripPairAll, h120]
    have hstrip2 : stripPairAll 48 88 mix = mix := by
      rw [hmm]
      simp [stripPairAll, h88]
    have hraweq :
        stripPairAll 48 88 (stripPairAll 48 120 (trimBytes (48 :: 120 :: mix)))
          = mix := by
      rw [htrim, hstrip1, hstrip2]
    constructor
    · have hfin := to_checksum_address_ok keccak (48 :: 120 :: mix) mix hraweq
        hmlen40 (hm.2.1)
      rw [hm.2.2.2] at hfin
      rw [hnib] at hfin
      rw [hmx] at hfin
      exact hfin
    · simpa using hm.2.2.2
  refine ⟨fun keccak x y hok => (main keccak x y hok).1, ?_,
    fun keccak x y hok => (main keccak x y hok).2⟩
  intro keccak xa xb hla hxa hlb hxb heq
  rw [to_checksum_address_ok keccak xa _ rfl hla hxa,
    to_checksum_address_ok keccak xb _ rfl hlb hxb, heq]

/-- C9 witness: idempotence applied at a concrete valid address (forty '0'
characters with a "0x" prefix) under a concrete hash function. -/
theorem checksum_idempotent_case_invariant_witness :
    to_checksum_address zeroKeccak (48 :: 120 :: List.replicate 40 48) =
      .ok (48 :: 120 :: List.replicate 40 48) :=
  checksum_idempotent_case_invariant.1 zeroKeccak (List.replicate 40 48)
    (48 :: 120 :: List.replicate 40 48) rfl

/-- C8 counterexample: the input "0x0x" followed by forty '0' characters
has a stripped remainder of 42 characters under the claim's reading (one
optional prefix removed), so the claim requires failure — but the code
strips the prefix repeatedly and accepts the input. Success does not
depend on the hash function; it is exhibited under a concrete one. -/
theorem checksum_double_prefix_counterexample :
    ¬((stripOnePfx (trimBytes cexAddr)).length = 40 ∧
      (stripOnePfx (trimBytes cexAddr)).all isHexB = true) ∧
    to_checksum_address zeroKeccak cexAddr =
      .ok (48 :: 120 :: List.replicate 40 48) := by
  constructor
  · decide
  · rfl

/-- C8 (amended): after stripping surrounding whitespace, then every
leading occurrence of "0x", then every leading occurrence of "0X", an
input whose remainder is exactly 40 ASCII hex characters yields "0x"
followed by the lowercased remainder with position i uppercased exactly
when the i-th hex digit of keccak256 of the lowercase ASCII hex string is
at least 8; any other input fails with the invalid-address error. -/
theorem checksum_address_spec :
    ∀ (keccak : Keccak) (address raw : List Nat),
    stripPairAll 48 88 (stripPairAll 48 120 (trimBytes address)) = raw →
    ((raw.length = 40 ∧ raw.all isHexB = true →
       to_checksum_address keccak address =
         .ok (48 :: 120 :: checksumSpecMap keccak (raw.map lowerB))) ∧
     (¬(raw.length = 40 ∧ raw.all isHexB = true) →
       to_checksum_address keccak address =
         .error "invalid address; expected 40 hex chars (with or without 0x)")) := by
  intro keccak address raw hraw
  constructor
  · rintro ⟨hlen, hhex⟩
    rw [to_checksum_address_ok keccak address raw hraw hlen hhex]
    have hspec : (raw.map lowerB).enum.map (fun p =>
        if 8 ≤ (hashNibbles (keccak (raw.map lowerB))).getD p.1 0 then upperB p.2
        else p.2) = checksumSpecMap keccak (raw.map lowerB) := by
      unfold checksumSpecMap
      have h := enumFrom_map_getD
        (fun i v => if 8 ≤ (hashNibbles (keccak (raw.map lowerB))).getD i 0
          then upperB v else v) (raw.map lowerB) 0
      simpa [List.enum] using h
    rw [hspec]
  · intro hbad
    exact to_checksum_address_error keccak address raw hraw hbad

/-- C8 witness: the amended theorem applied at a concrete 40-character
address, in both the success and the failure direction. -/
theorem checksum_address_spec_witness :
    to_checksum_address zeroKeccak (List.replicate 40 97) =
      .ok (48 :: 120 :: checksumSpecMap zeroKeccak
        ((List.replicate 40 97).map lowerB)) ∧
    to_checksum_address zeroKeccak [48, 120, 97] =
      .error "invalid address; expected 40 hex chars (with or without 0x)" :=
  ⟨by
    have h := (checksum_address_spec zeroKeccak (List.replicate 40 97)
      (List.replicate 40 97) (by decide)).1 (by decide)
    simpa using h,
   (checksum_address_spec zeroKeccak [48, 120, 97] [97] (by decide)).2 (by decide)⟩

end HLSigner
